import Mathlib

/-!
Verification of the rndSequencer token-analysis engine
(`packages/backend/src/index.ts`) against its natural-language specification.

The TypeScript analysis code is shallowly embedded below.  JavaScript `number`
arithmetic is modelled over `ℚ`; the transcendental primitives the runtime
supplies (`Math.exp`, `Math.log`, `Math.log2`, `Math.sqrt`, `Math.sin`,
`Math.PI`) are abstracted into a `Prim` structure so that every theorem holds
for an arbitrary interpretation of those primitives (concrete instances are
used for concrete evaluations).  Division by zero, which JavaScript turns into
`Infinity`/`NaN`, is the `ℚ` convention `x / 0 = 0`; every division reachable
under a theorem's hypotheses has a non-zero denominator in the source as well.
JavaScript strings are modelled by Lean `String` (identical on the ASCII data
all claims use).
-/

/- Batteries marks the `Rat` arithmetic operations `@[irreducible]`, which
blocks `decide`-style evaluation of concrete rational computations in the
elaborator (the kernel is unaffected).  Restore the default reducibility for
this file so concrete witnesses evaluate. -/
set_option allowUnsafeReducibility true

attribute [local semireducible] Rat.mul Rat.inv Rat.add Rat.sub Rat.ofScientific

namespace RndSeq

/-- The numeric primitives the JavaScript runtime provides (`Math.exp`,
`Math.log`, `Math.log2`, `Math.sqrt`, `Math.sin`, `Math.PI`).  The embedding is
parametric in them. -/
structure Prim where
  exp : ℚ → ℚ
  log : ℚ → ℚ
  log2 : ℚ → ℚ
  sqrt : ℚ → ℚ
  sin : ℚ → ℚ
  pi : ℚ

/-- The encoding label attached to a decoded token
(`'hex' | 'base64' | 'base64url' | 'raw'`). -/
inductive Enc where
  | hex
  | base64
  | base64url
  | raw
deriving DecidableEq, Repr

/-- `decodeTokenToBytes`' result `{ bytes, encoding }`. -/
structure DecodedToken where
  bytes : List Nat
  encoding : Enc
deriving DecidableEq, Repr

/-- `TokenCapture` (the fields the analysis engine reads; the collector also
stores request/response text and headers). -/
structure TokenCapture where
  token : String
  requestSent : String
  responseReceived : String
  extractedFrom : String
deriving DecidableEq, Repr

/-- Build a capture carrying only a token (test inputs). -/
def mkCapture (t : String) : TokenCapture := ⟨t, "", "", ""⟩

/-- `s.startsWith(pre)` on the character data (the core `String.startsWith`
is extensionally the same but does not evaluate inside the kernel). -/
def strStartsWith (s pre : String) : Bool := pre.data.isPrefixOf s.data

/-- `token.split(sep)` on character data: split at every separator, keeping
empty segments, like the JavaScript `String.prototype.split` with a
single-character separator. -/
def splitOnChar (sep : Char) (l : List Char) : List (List Char) :=
  l.foldr
    (fun c acc =>
      if c = sep then [] :: acc
      else
        match acc with
        | h :: t => (c :: h) :: t
        | [] => [[c]])
    [[]]

/-- The whitespace class of the JavaScript regular-expression escape used in
`token.replace` (the code points matched by the `RegExp` whitespace escape and
by `parseInt`'s leading-whitespace skip). -/
def isJsWhitespace (c : Char) : Bool :=
  c.toNat = 9 ∨ c.toNat = 10 ∨ c.toNat = 11 ∨ c.toNat = 12 ∨ c.toNat = 13 ∨
  c.toNat = 32 ∨ c.toNat = 160 ∨ c.toNat = 5760 ∨
  (8192 ≤ c.toNat ∧ c.toNat ≤ 8202) ∨ c.toNat = 8232 ∨ c.toNat = 8233 ∨
  c.toNat = 8239 ∨ c.toNat = 8287 ∨ c.toNat = 12288 ∨ c.toNat = 65279

/-- ASCII whitespace, the class `atob` (forgiving-base64) strips. -/
def isAsciiWhitespace (c : Char) : Bool :=
  c.toNat = 9 ∨ c.toNat = 10 ∨ c.toNat = 12 ∨ c.toNat = 13 ∨ c.toNat = 32

/-- The character class of the regular expression `[0-9a-fA-F]`. -/
def isHexDigitChar (c : Char) : Bool :=
  (48 ≤ c.toNat ∧ c.toNat ≤ 57) ∨ (65 ≤ c.toNat ∧ c.toNat ≤ 70) ∨
  (97 ≤ c.toNat ∧ c.toNat ≤ 102)

/-- Value of one hexadecimal digit (callers guarantee `isHexDigitChar`). -/
def hexDigitVal (c : Char) : Nat :=
  if 48 ≤ c.toNat ∧ c.toNat ≤ 57 then c.toNat - 48
  else if 65 ≤ c.toNat ∧ c.toNat ≤ 70 then c.toNat - 55
  else if 97 ≤ c.toNat ∧ c.toNat ≤ 102 then c.toNat - 87
  else 0

/-- The byte list a hexadecimal digit string denotes, two digits per byte
(the loop `for (let i = 0; i < clean.length; i += 2)` in `tryDecodeHex`;
callers have checked the length is even, so the one-digit leftover case is
unreachable there). -/
def hexBytesOfChars : List Char → List Nat
  | [] => []
  | [_] => []
  | c1 :: c2 :: rest => (16 * hexDigitVal c1 + hexDigitVal c2) :: hexBytesOfChars rest

/-- `tryDecodeHex`: strip whitespace, require a non-empty even-length string of
hex digits, and decode byte pairs.  The in-loop `Number.isNaN` guard of the
source is dead code (the regular expression has already validated every
digit). -/
def tryDecodeHex (token : String) : Option (List Nat) :=
  let clean := token.data.filter (fun c => !(isJsWhitespace c))
  if clean ≠ [] ∧ clean.all isHexDigitChar then
    if clean.length % 2 = 0 then some (hexBytesOfChars clean) else none
  else none

/-- Value of one base64-alphabet character, `none` outside the alphabet. -/
def b64CharVal (c : Char) : Option Nat :=
  if 65 ≤ c.toNat ∧ c.toNat ≤ 90 then some (c.toNat - 65)
  else if 97 ≤ c.toNat ∧ c.toNat ≤ 122 then some (c.toNat - 71)
  else if 48 ≤ c.toNat ∧ c.toNat ≤ 57 then some (c.toNat + 4)
  else if c = '+' then some 62
  else if c = '/' then some 63
  else none

/-- Decode a list of 6-bit values into bytes, four values to three bytes, with
the forgiving-base64 handling of a trailing chunk (two values give one byte,
three give two, a single leftover value is an error). -/
def b64Bytes : List Nat → Option (List Nat)
  | [] => some []
  | [_] => none
  | [a, b] => some [(a * 4 + b / 16) % 256]
  | [a, b, c] => some [(a * 4 + b / 16) % 256, (b % 16 * 16 + c / 4) % 256]
  | a :: b :: c :: d :: rest =>
      (b64Bytes rest).map
        (fun tl => (a * 4 + b / 16) % 256 :: (b % 16 * 16 + c / 4) % 256 ::
          (c % 4 * 64 + d) % 256 :: tl)

/-- Map every character through `b64CharVal`, failing on the first invalid
one. -/
def b64Vals : List Char → Option (List Nat)
  | [] => some []
  | c :: rest =>
      match b64CharVal c, b64Vals rest with
      | some v, some vs => some (v :: vs)
      | _, _ => none

/-- The runtime's `atob` (WHATWG forgiving-base64 decode): strip ASCII
whitespace, drop up to two trailing padding characters when the length is a
multiple of four, fail on a remainder of one or on characters outside the
alphabet. -/
def atobDecode (s : String) : Option (List Nat) :=
  let cs := s.data.filter (fun c => !(isAsciiWhitespace c))
  let cs :=
    if cs.length % 4 = 0 then
      let cs1 := if cs.getLast? = some '=' then cs.dropLast else cs
      if cs1.getLast? = some '=' then cs1.dropLast else cs1
    else cs
  if cs.length % 4 = 1 then none
  else match b64Vals cs with
    | some vs => b64Bytes vs
    | none => none

/-- The `toB64` closure of `tryDecodeBase64Like`: url-safe characters replaced
by the standard alphabet, then `'='` padding to a multiple of four. -/
def toB64 (s : String) : String :=
  let t := s.data.map (fun c => if c = '-' then '+' else if c = '_' then '/' else c)
  let r := t.length % 4
  ⟨t ++ List.replicate (if r = 0 then 0 else 4 - r) '='⟩

/-- `tryDecodeBase64Like`: try the padded/substituted form, the verbatim
string, and (for a leading dot) the form with that dot removed; the first
variant `atob` accepts wins. -/
def tryDecodeBase64Like (token : String) : Option (List Nat × Enc) :=
  let urlish := token.data.any (fun c => c = '-' ∨ c = '_')
  let kindA : Enc := if urlish then Enc.base64url else Enc.base64
  let variants : List (String × Enc) :=
    [(toB64 token, kindA), (token, Enc.base64)] ++
      (if strStartsWith token "." then [(toB64 ⟨token.data.drop 1⟩, kindA)] else [])
  variants.findSome? (fun v => (atobDecode v.1).map (fun bs => (bs, v.2)))

/-- `stringToUtf8Bytes` (the `TextEncoder` path, available in the host
runtime): the UTF-8 bytes of the string. -/
def stringToUtf8Bytes (s : String) : List Nat :=
  s.toUTF8.toList.map (fun b => b.toNat)

/-- The per-segment loop of `decodeTokenToBytes` for dot-separated tokens: all
segments must decode, their bytes are concatenated, and the label is
`base64url` as soon as any segment required the url-safe substitution. -/
def tryDecodeSegments : List String → Option (List Nat × Enc)
  | [] => some ([], Enc.base64)
  | p :: rest =>
      match tryDecodeBase64Like p, tryDecodeSegments rest with
      | some (bs, k), some (bs', k') =>
          some (bs ++ bs',
            if k = Enc.base64url ∨ k' = Enc.base64url then Enc.base64url else Enc.base64)
      | _, _ => none

/-- `decodeTokenToBytes`: segmented base64 for dot-separated tokens, else hex,
else whole-string base64, else raw UTF-8 — the fallback always succeeds. -/
def decodeTokenToBytes (token : String) : DecodedToken :=
  let seg : Option DecodedToken :=
    if '.' ∈ token.data then
      let parts := ((splitOnChar '.' token.data).map (fun l => (⟨l⟩ : String))).filter
        (fun p => p.length > 0)
      if parts.length ≥ 2 then
        match tryDecodeSegments parts with
        | some (bs, k) => some ⟨bs, k⟩
        | none => none
      else none
    else none
  match seg with
  | some d => d
  | none =>
      match tryDecodeHex token with
      | some bs => ⟨bs, Enc.hex⟩
      | none =>
          match tryDecodeBase64Like token with
          | some (bs, k) => ⟨bs, k⟩
          | none => ⟨stringToUtf8Bytes token, Enc.raw⟩

/-- `bytesToBits`: most-significant bit first. -/
def bytesToBits (bytes : List Nat) : List Nat :=
  bytes.flatMap (fun byte => (List.range 8).map (fun j => byte / 2 ^ (7 - j) % 2))

/-- `charStringToBitsRaw`: the 8-bit-per-character bitstream of the printable
token text (`charCodeAt(i) & 0xff`), most-significant bit first. -/
def charStringToBitsRaw (s : String) : List Nat :=
  s.data.flatMap (fun c => (List.range 8).map (fun j => c.toNat % 256 / 2 ^ (7 - j) % 2))

/-- JavaScript `parseInt(s)` with no radix argument: skip leading whitespace,
an optional sign, auto-detect a `0x`/`0X` prefix, then read the maximal digit
prefix; `none` models `NaN`. -/
def jsParseInt (s : String) : Option Int :=
  let cs := s.data.dropWhile isJsWhitespace
  let signed : Bool × List Char :=
    match cs with
    | '-' :: r => (true, r)
    | '+' :: r => (false, r)
    | r => (false, r)
  let based : Nat × List Char :=
    match signed.2 with
    | '0' :: 'x' :: r => (16, r)
    | '0' :: 'X' :: r => (16, r)
    | r => (10, r)
  let isDigitIn : Char → Bool := fun c =>
    if based.1 = 16 then isHexDigitChar c else c.isDigit
  let ds := based.2.takeWhile isDigitIn
  if ds = [] then none
  else
    let v : Nat := ds.foldl (fun acc c => acc * based.1 + hexDigitVal c) 0
    some (if signed.1 then -(v : Int) else (v : Int))

/-- Distinct elements in first-occurrence order: the key order of a JavaScript
`Map`/`Set` built by insertion, and the size of `new Set(tokens)`. -/
def firstDedup {α : Type} [DecidableEq α] (l : List α) : List α :=
  l.foldl (fun acc a => if a ∈ acc then acc else acc ++ [a]) []

/-- Ascending insertion of one element (used to model `.sort((a,b)=>a-b)`). -/
def insertAsc (x : ℚ) : List ℚ → List ℚ
  | [] => [x]
  | y :: ys => if x ≤ y then x :: y :: ys else y :: insertAsc x ys

/-- Ascending sort, the effect of `[...].sort((a,b)=>a-b)`. -/
def sortAsc (l : List ℚ) : List ℚ := l.foldr insertAsc []

/-- `Math.min(...list)` over a non-empty list (`0` for the empty list, which
no caller reaches). -/
def listMin1 : List ℚ → ℚ
  | [] => 0
  | h :: t => t.foldl min h

/-- `Math.min(...list)` over a non-empty list of naturals. -/
def listMinNat : List Nat → Nat
  | [] => 0
  | h :: t => t.foldl min h

/-- `Math.max(...list)` over a non-empty list of naturals. -/
def listMaxNat : List Nat → Nat
  | [] => 0
  | h :: t => t.foldl max h

/-- `Math.round`: nearest integer, ties toward positive infinity. -/
def jsRound (q : ℚ) : Int := ⌊q + 1 / 2⌋

/-- Left-pad a string with `'0'` to the given length. -/
def padZeros (n : Nat) (s : String) : String :=
  ⟨List.replicate (n - s.length) '0' ++ s.data⟩

/-- `Number.prototype.toFixed(d)`: decimal rendering with `d` fractional
digits, rounding to nearest with ties toward positive infinity. -/
def toFixedQ (d : Nat) (q : ℚ) : String :=
  let m : Int := (10 : Int) ^ d
  let r : Int := ⌊q * (m : ℚ) + 1 / 2⌋
  let sign := if r < 0 then "-" else ""
  let a := r.natAbs
  sign ++ toString (a / m.natAbs) ++ "." ++ padZeros d (toString (a % m.natAbs))

/-- The hex rendering `v.toString(16).padStart(2, '0')` of a byte. -/
def byteToHexStr (v : Nat) : String :=
  let digitChar : Nat → Char := fun n =>
    if n < 10 then Char.ofNat (48 + n) else Char.ofNat (87 + n)
  ⟨[digitChar (v / 16 % 16), digitChar (v % 16)]⟩

/-- `calculateEntropy`: character-level Shannon entropy over the pooled
characters of all tokens, in bits per character. -/
def calculateEntropy (prim : Prim) (tokens : List String) : ℚ :=
  if tokens = [] then 0
  else
    let cs := tokens.flatMap String.data
    let totalChars := cs.length
    Neg.neg (((firstDedup cs).map (fun c =>
        let p : ℚ := (cs.count c : ℚ) / (totalChars : ℚ)
        p * prim.log2 p)).sum)

/-- `calculateMinEntropy`: whole-token min-entropy
`-log2(mostFrequentTokenCount / sampleSize)`. -/
def calculateMinEntropy (prim : Prim) (tokens : List String) : ℚ :=
  if tokens = [] then 0
  else
    let maxCount := listMaxNat ((firstDedup tokens).map (fun t => tokens.count t))
    let maxProb : ℚ := (maxCount : ℚ) / (tokens.length : ℚ)
    Neg.neg (prim.log2 maxProb)

/-- One row of the per-position byte table
(`{ position, entropy, mostCommonChar, frequency, coverage }`; the source
types `coverage` as optional but always fills it here). -/
structure PosDatum where
  position : Nat
  entropy : ℚ
  mostCommonChar : String
  frequency : ℚ
  coverage : ℚ
deriving DecidableEq, Repr

/-- `calculatePerPositionMinEntropyBytes`' result
`{ totalEntropy, positionData }`. -/
structure PerPosRes where
  totalEntropy : ℚ
  positionData : List PosDatum
deriving DecidableEq, Repr

/-- The most-common-value scan of a frequency table built in first-occurrence
order: the pair `(maxCount, mostCommonVal)` selected by strict improvement. -/
def mostCommonByte (byteTokens : List (List Nat)) (pos : Nat) : Nat × Nat :=
  let vals := (byteTokens.filterMap (fun bytes => bytes.get? pos))
  (firstDedup vals).foldl
    (fun acc v => if vals.count v > acc.1 then (vals.count v, v) else acc) (0, 0)

/-- `calculatePerPositionMinEntropyBytes`: per byte offset, the min-entropy of
the byte value over the tokens long enough to reach that offset, summed. -/
def calculatePerPositionMinEntropyBytes (prim : Prim) (byteTokens : List (List Nat)) :
    PerPosRes :=
  if byteTokens = [] then ⟨0, []⟩
  else
    let maxLen := listMaxNat (byteTokens.map List.length)
    if maxLen = 0 then ⟨0, []⟩
    else
      let rows := (List.range maxLen).filterMap (fun pos =>
        let vals := byteTokens.filterMap (fun bytes => bytes.get? pos)
        let contributors := vals.length
        if contributors = 0 then none
        else
          let mc := mostCommonByte byteTokens pos
          let maxProb : ℚ := (mc.1 : ℚ) / (contributors : ℚ)
          some ⟨pos, -prim.log2 maxProb, byteToHexStr mc.2, maxProb,
            (contributors : ℚ) / (byteTokens.length : ℚ)⟩)
      ⟨(rows.map PosDatum.entropy).sum, rows⟩

/-- One row of the raw per-position character table. -/
structure RawPosDatum where
  position : Nat
  entropy : ℚ
  normalizedEntropy : ℚ
  mostCommonChar : String
  frequency : ℚ
  coverage : ℚ
deriving DecidableEq, Repr

/-- The most-common-character scan for the raw per-position table. -/
def mostCommonChar (tokens : List String) (pos : Nat) : Nat × Char :=
  let vals := tokens.filterMap (fun tok => tok.data.get? pos)
  (firstDedup vals).foldl
    (fun acc c => if vals.count c > acc.1 then (vals.count c, c) else acc)
    (0, ⟨0, by decide⟩)

/-- `calculatePerPositionCharEntropyRaw`: per character offset on the raw
token text, min-entropy, its normalization by the achievable maximum, the
most common character and the coverage. -/
def calculatePerPositionCharEntropyRaw (prim : Prim) (tokens : List String) :
    List RawPosDatum :=
  if tokens = [] then []
  else
    let maxLen := listMaxNat (tokens.map String.length)
    (List.range maxLen).filterMap (fun pos =>
      let vals := tokens.filterMap (fun tok => tok.data.get? pos)
      let contributors := vals.length
      if contributors = 0 then none
      else
        let mc := mostCommonChar tokens pos
        let maxProb : ℚ := (mc.1 : ℚ) / (contributors : ℚ)
        let entropy := -prim.log2 maxProb
        let alphabetSize := max 1 (firstDedup vals).length
        let maxAchievable := prim.log2 ((min contributors alphabetSize : Nat) : ℚ)
        let normalizedEntropy :=
          if maxAchievable > 0 then min 1 (max 0 (entropy / maxAchievable)) else 0
        some ⟨pos, entropy, normalizedEntropy, ⟨[mc.2]⟩, maxProb,
          (contributors : ℚ) / (tokens.length : ℚ)⟩)

/-- `erfc`: the Numerical-Recipes-style rational approximation of the
complementary error function used by the source. -/
def erfc (prim : Prim) (x : ℚ) : ℚ :=
  let z := |x|
  let t : ℚ := 1 / (1 + 1 / 2 * z)
  let tau := t * prim.exp (
    -z * z - 1.26551223 + 1.00002368 * t + 0.37409196 * t * t +
      0.09678418 * t ^ 3 - 0.18628806 * t ^ 4 + 0.27886807 * t ^ 5 -
      1.13520398 * t ^ 6 + 1.48851587 * t ^ 7 - 0.82215223 * t ^ 8 +
      0.17087277 * t ^ 9)
  if x ≥ 0 then tau else 2 - tau

/-- `normalCDF`: the Abramowitz–Stegun-style rational approximation of the
standard normal distribution function used by the source. -/
def normalCDF (prim : Prim) (z : ℚ) : ℚ :=
  let t : ℚ := 1 / (1 + 0.2316419 * |z|)
  let d := 0.3989423 * prim.exp (-z * z / 2)
  let prob := d * t * (0.3193815 + t * (-0.3565638 + t * (1.781478 + t * (-1.821256 + t * 1.330274))))
  if z > 0 then 1 - prob else prob

/-- `chiSquaredTest`: two-cell chi-squared on a pooled bit list, `1.0` below
100 bits, mapped to a p-value through `erfc` and clamped to `[0, 1]`. -/
def chiSquaredTest (prim : Prim) (bits : List Nat) : ℚ :=
  if bits.length < 100 then 1
  else
    let observed0 := (bits.filter (fun b => b = 0)).length
    let observed1 := (bits.filter (fun b => b = 1)).length
    let expected : ℚ := (bits.length : ℚ) / 2
    let chiSq := ((observed0 : ℚ) - expected) ^ 2 / expected +
      ((observed1 : ℚ) - expected) ^ 2 / expected
    max 0 (min 1 (erfc prim (prim.sqrt (chiSq / 2))))

/-- `serialCorrelation`: lag-one correlation coefficient of a bit list, `0`
when either variance vanishes. -/
def serialCorrelation (prim : Prim) (bits : List Nat) : ℚ :=
  if bits.length < 2 then 0
  else
    let n := bits.length - 1
    let xs := bits.take n
    let ys := bits.drop 1
    let sum1 : ℚ := ((xs.map (fun b => (b : ℚ))).sum)
    let sum2 : ℚ := ((ys.map (fun b => (b : ℚ))).sum)
    let sum12 : ℚ := (((xs.zip ys).map (fun p => (p.1 : ℚ) * (p.2 : ℚ))).sum)
    let mean1 := sum1 / (n : ℚ)
    let mean2 := sum2 / (n : ℚ)
    let covariance := sum12 / (n : ℚ) - mean1 * mean2
    let var1 := ((xs.map (fun b => ((b : ℚ) - mean1) ^ 2)).sum) / (n : ℚ)
    let var2 := ((ys.map (fun b => ((b : ℚ) - mean2) ^ 2)).sum) / (n : ℚ)
    let stdDev := prim.sqrt (var1 * var2)
    if stdDev = 0 then 0 else covariance / stdDev

/-- `serialCorrelationPerTokenAverage`: bit-length-weighted average of the
absolute per-token serial correlations. -/
def serialCorrelationPerTokenAverage (prim : Prim) (byteTokens : List (List Nat)) : ℚ :=
  let pieces := (byteTokens.map bytesToBits).filter (fun bits => bits.length ≥ 2)
  let weightedAbs : ℚ :=
    ((pieces.map (fun bits => |serialCorrelation prim bits| * (bits.length : ℚ))).sum)
  let totalBits : ℚ := ((pieces.map (fun bits => (bits.length : ℚ))).sum)
  if totalBits > 0 then weightedAbs / totalBits else 0

/-- A statistical test's `{ p, applicable }` pair. -/
structure TestRes where
  p : ℚ
  applicable : Bool
deriving DecidableEq, Repr

/-- The number of indices `i ≥ 1` with `bits[i] ≠ bits[i-1]`. -/
def countTransitions : List Nat → Nat
  | a :: b :: rest => (if a ≠ b then 1 else 0) + countTransitions (b :: rest)
  | _ => 0

/-- `runsTest`: the NIST runs test with its explicit applicability gates — a
safe default `{p := 1, applicable := false}` below 100 bits, under the bias
precondition, or at zero variance; otherwise a normal-approximation p-value
clamped to `[0, 1]`. -/
def runsTest (prim : Prim) (bits : List Nat) : TestRes :=
  if bits.length < 100 then ⟨1, false⟩
  else
    let n0 := (bits.filter (fun b => b = 0)).length
    let n1 := (bits.filter (fun b => b = 1)).length
    let n := bits.length
    if n = 0 then ⟨1, false⟩
    else
      let piQ : ℚ := (n1 : ℚ) / (n : ℚ)
      let tau : ℚ := 2 / prim.sqrt (n : ℚ)
      if |piQ - 1 / 2| ≥ tau then ⟨1, false⟩
      else
        let runs := 1 + countTransitions bits
        let expectedRuns : ℚ := 2 * (n0 : ℚ) * (n1 : ℚ) / (n : ℚ) + 1
        let variance : ℚ :=
          2 * (n0 : ℚ) * (n1 : ℚ) * (2 * (n0 : ℚ) * (n1 : ℚ) - (n : ℚ)) /
            ((n : ℚ) * (n : ℚ) * ((n : ℚ) - 1))
        if variance = 0 then ⟨1, false⟩
        else
          let z := ((runs : ℚ) - expectedRuns) / prim.sqrt variance
          ⟨max 0 (min 1 (2 * (1 - normalCDF prim |z|))), true⟩

/-- The LZ78 state: dictionary contents, dictionary size, current phrase, and
accumulated compressed length. -/
structure LzState where
  dict : List (List Nat)
  dictSize : Nat
  cur : List Nat
  comp : Nat

/-- `lzEntropyEstimate`: LZ78 dictionary build over the bit list; the
compressed-length estimate adds `ceil(log2(dictionarySize))` at each new
phrase; entropy rate is compressed length over original length.  Inputs under
100 bits return `0`. -/
def lzEntropyEstimate (bits : List Nat) : ℚ :=
  if bits.length < 100 then 0
  else
    let final := bits.foldl
      (fun (st : LzState) bit =>
        let newString := st.cur ++ [bit]
        if newString ∈ st.dict then { st with cur := newString }
        else
          { dict := st.dict ++ [newString], dictSize := st.dictSize + 1,
            cur := [bit], comp := st.comp + Nat.clog 2 (st.dictSize + 1) })
      ⟨[], 1, [], 0⟩
    (final.comp : ℚ) / (bits.length : ℚ)

/-- `sp22FrequencyMonobit`: the SP 800-22 frequency test, applicable from 100
bits, p-value `erfc(|S|/√n / √2)` clamped to `[0, 1]`. -/
def sp22FrequencyMonobit (prim : Prim) (bits : List Nat) : TestRes :=
  let n := bits.length
  if n < 100 then ⟨1, false⟩
  else
    let s : Int := (bits.map (fun b => if b = 1 then (1 : Int) else -1)).sum
    let sObs : ℚ := (|s| : ℚ) / prim.sqrt (n : ℚ)
    ⟨max 0 (min 1 (erfc prim (sObs / prim.sqrt 2))), true⟩

/-- The Lanczos sum of `lnGamma` for arguments at least `1/2`. -/
def lnGammaPos (prim : Prim) (z : ℚ) : ℚ :=
  let p : List ℚ := [676.5203681218851, -1259.1392167224028, 771.32342877765313,
    -176.61502916214059, 12.507343278686905, -0.13857109526572012,
    0.0000099843695780195716, 0.00000015056327351493116]
  let z' := z - 1
  let x := 0.99999999999980993 +
    ((List.range p.length).map (fun i => p.getD i 0 / (z' + (i : ℚ) + 1))).sum
  let t := z' + (p.length : ℚ) - 1 / 2
  1 / 2 * prim.log (2 * prim.pi) + (z' + 1 / 2) * prim.log t - t + prim.log x

/-- `lnGamma`: Lanczos approximation with the reflection formula below
`1/2` (one reflection step suffices, as the reflected argument exceeds
`1/2`). -/
def lnGamma (prim : Prim) (z : ℚ) : ℚ :=
  if z < 1 / 2 then
    prim.log prim.pi - prim.log (prim.sin (prim.pi * z)) - lnGammaPos prim (1 - z)
  else lnGammaPos prim z

/-- The series/continued-fraction state of `gammaincUpperRegularized`,
with `done` modelling the loop's `break`. -/
structure GammaIterState where
  a0 : ℚ
  a1 : ℚ
  b0 : ℚ
  b1 : ℚ
  fac : ℚ
  g : ℚ
  gold : ℚ
  done : Bool

/-- `gammaincUpperRegularized(s, x)`: regularized upper incomplete gamma,
series expansion for `x < s + 1` and continued fraction otherwise, each
truncated at 1000 iterations or a relative change below `10⁻¹²`. -/
def gammaincUpperRegularized (prim : Prim) (s x : ℚ) : ℚ :=
  if x ≤ 0 then 1
  else if x < s + 1 then
    let final := (List.range' 1 999).foldl
      (fun (st : ℚ × ℚ × Bool) n =>
        if st.2.2 then st
        else
          let term := st.2.1 * (x / (s + (n : ℚ)))
          let sum := st.1 + term
          (sum, term, term < sum * 0.000000000001))
      (1 / s, 1 / s, false)
    let lnGammaS := lnGamma prim s
    let bigP := final.1 * prim.exp (s * prim.log x - x - lnGammaS)
    1 - min 1 (max 0 bigP)
  else
    let lnGammaS := lnGamma prim s
    let final := (List.range' 1 999).foldl
      (fun (st : GammaIterState) n =>
        if st.done then st
        else
          let an : ℚ := (n : ℚ) * (s - (n : ℚ))
          let a0' := st.a1 + st.a0 * an
          let b0' := st.b1 + st.b0 * an
          let aNew := (x - s + 2 * (n : ℚ) + 1) * a0' + an * st.a1
          let bNew := (x - s + 2 * (n : ℚ) + 1) * b0' + an * st.b1
          if bNew ≠ 0 then
            let fac := 1 / bNew
            let g := aNew * fac
            if |(g - st.gold) / g| < 0.000000000001 then
              { a0 := a0', a1 := aNew, b0 := b0', b1 := bNew,
                fac := fac, g := g, gold := st.gold, done := true }
            else
              { a0 := a0', a1 := aNew, b0 := b0', b1 := bNew,
                fac := fac, g := g, gold := g, done := false }
          else
            { a0 := a0', a1 := aNew, b0 := b0', b1 := bNew,
              fac := st.fac, g := st.g, gold := st.gold, done := false })
      { a0 := 1, a1 := x - s + 1, b0 := 0, b1 := 1,
        fac := 1 / (x - s + 1), g := 1 / (x - s + 1), gold := 0, done := false }
    min 1 (max 0 (prim.exp (s * prim.log x - x - lnGammaS) * final.g))

/-- `chiSquareUpperTailPValue`: `Q(df/2, chi2/2)`. -/
def chiSquareUpperTailPValue (prim : Prim) (chi2 df : ℚ) : ℚ :=
  gammaincUpperRegularized prim (df / 2) (chi2 / 2)

/-- `sp22BlockFrequency`'s `{ p, applicable, blocks }`. -/
structure BlockRes where
  p : ℚ
  applicable : Bool
  blocks : Nat
deriving DecidableEq, Repr

/-- `sp22BlockFrequency`: the SP 800-22 block-frequency test over blocks of
`M` bits (`M = 256` at the call site). -/
def sp22BlockFrequency (prim : Prim) (bits : List Nat) (M : Nat) : BlockRes :=
  let n := bits.length
  let N := n / M
  if N < 1 then ⟨1, false, 0⟩
  else
    let chi2 : ℚ := ((List.range N).map (fun i =>
      let sum := (((List.range M).map (fun j => bits.getD (i * M + j) 0)).sum)
      let piQ : ℚ := (sum : ℚ) / (M : ℚ)
      4 * (M : ℚ) * (piQ - 1 / 2) ^ 2)).sum
    ⟨chiSquareUpperTailPValue prim chi2 (N : ℚ), true, N⟩

/-- The aggregation result `{ median, passRate }` of `aggregatePValues`. -/
structure AggRes where
  median : ℚ
  passRate : ℚ
deriving DecidableEq, Repr

/-- `aggregatePValues`: `{median := 1, passRate := 1}` on an empty list, else
the middle element of the ascending sort and the fraction of p-values at least
`alpha`. -/
def aggregatePValues (pvalues : List ℚ) (alpha : ℚ) : AggRes :=
  if pvalues = [] then ⟨1, 1⟩
  else
    let sorted := sortAsc pvalues
    ⟨sorted.getD (sorted.length / 2) 1,
      ((pvalues.filter (fun p => p ≥ alpha)).length : ℚ) / (pvalues.length : ℚ)⟩

/-- The sliding cyclic pattern-count table of the serial / approximate-entropy
tests: counts of every overlapping `m`-bit pattern with wrap-around. -/
def cyclicCounts (bits : List Nat) (m : Nat) : List Nat :=
  let n := bits.length
  let k := 2 ^ m
  let p0 := (List.range m).foldl (fun pat i => pat * 2 + bits.getD i 0) 0
  let start := (List.replicate k 0).set p0 ((List.replicate k 0).getD p0 0 + 1)
  ((List.range' m (n - 1)).foldl
    (fun (st : Nat × List Nat) i =>
      let pat := (st.1 * 2) % k + bits.getD (i % n) 0
      (pat, st.2.set pat (st.2.getD pat 0 + 1)))
    (p0, start)).2

/-- The `psi2` statistic of the SP 800-22 serial test. -/
def psi2 (bits : List Nat) (m : Nat) : ℚ :=
  if m = 0 then 0
  else
    let counts := cyclicCounts bits m
    let k := 2 ^ m
    let sum : ℚ := ((counts.map (fun c => ((c * c : Nat) : ℚ))).sum)
    (k : ℚ) * sum / (bits.length : ℚ) - (bits.length : ℚ)

/-- `sp22SerialM2`'s `{ p1, p2, applicable }`. -/
structure SerialRes where
  p1 : ℚ
  p2 : ℚ
  applicable : Bool
deriving DecidableEq, Repr

/-- `sp22SerialM2`: the SP 800-22 serial test with `m = 2`, applicable from
1000 bits, both p-values clamped to `[0, 1]`. -/
def sp22SerialM2 (prim : Prim) (bits : List Nat) : SerialRes :=
  let n := bits.length
  if n < 1000 then ⟨1, 1, false⟩
  else
    let delta1 := psi2 bits 2 - psi2 bits 1
    let delta2 := psi2 bits 1 - psi2 bits 0
    ⟨max 0 (min 1 (chiSquareUpperTailPValue prim delta1 2)),
      max 0 (min 1 (chiSquareUpperTailPValue prim delta2 1)), true⟩

/-- The `phi` statistic of the approximate-entropy test. -/
def apEnPhi (prim : Prim) (bits : List Nat) (mm : Nat) : ℚ :=
  let counts := cyclicCounts bits mm
  ((counts.map (fun c =>
    let p : ℚ := (c : ℚ) / (bits.length : ℚ)
    if p > 0 then p * prim.log p else 0)).sum)

/-- `sp22ApproxEntropy`: the SP 800-22 approximate-entropy test with `m = 2`,
applicable from 10000 bits. -/
def sp22ApproxEntropy (prim : Prim) (bits : List Nat) (m : Nat) : TestRes :=
  let n := bits.length
  if n < 10000 then ⟨1, false⟩
  else
    let apEn := apEnPhi prim bits m - apEnPhi prim bits (m + 1)
    let bigX := 2 * (n : ℚ) * (prim.log 2 - apEn)
    let s := 2 ^ (m - 1)
    ⟨max 0 (min 1 (gammaincUpperRegularized prim (s : ℚ) (bigX / 2))), true⟩

/-- The inclusive integer range `[a, b]` (empty when `b < a`). -/
def intRange (a b : Int) : List Int :=
  (List.range (b + 1 - a).toNat).map (fun k => a + (k : Int))

/-- The maximal absolute partial sum of a ±1 list. -/
def maxAbsPartialSum (signs : List Int) : Int :=
  (signs.foldl (fun (st : Int × Int) v =>
    let s := st.1 + v
    (s, max st.2 |s|)) (0, 0)).2

/-- `sp22CumulativeSums`: the SP 800-22 cumulative-sums test (forward and
backward, reporting the smaller p-value), applicable from 1000 bits. -/
def sp22CumulativeSums (prim : Prim) (bits : List Nat) : TestRes :=
  let n := bits.length
  if n < 1000 then ⟨1, false⟩
  else
    let signs := bits.map (fun b => if b = 1 then (1 : Int) else -1)
    let zf := maxAbsPartialSum signs
    let zb := maxAbsPartialSum signs.reverse
    let calcP : Int → ℚ := fun z =>
      if z = 0 then 1
      else
        let zq : ℚ := (z : ℚ)
        let sqrtN := prim.sqrt (n : ℚ)
        let sum1 : ℚ := ((intRange ⌊(-(n : ℚ) / zq + 1) / 4⌋ ⌊((n : ℚ) / zq - 1) / 4⌋).map
          (fun k => normalCDF prim ((4 * (k : ℚ) + 1) * zq / sqrtN) -
            normalCDF prim ((4 * (k : ℚ) - 1) * zq / sqrtN))).sum
        let sum2 : ℚ := ((intRange ⌊(-(n : ℚ) / zq - 3) / 4⌋ ⌊((n : ℚ) / zq - 1) / 4⌋).map
          (fun k => normalCDF prim ((4 * (k : ℚ) + 3) * zq / sqrtN) -
            normalCDF prim ((4 * (k : ℚ) + 1) * zq / sqrtN))).sum
        max 0 (min 1 (1 - sum1 + sum2))
    ⟨min (calcP zf) (calcP zb), true⟩

/-- `hammingDistance`: character-wise distance for equal lengths, the larger
length otherwise (unequal lengths are treated as maximally distant). -/
def hammingDistance (s1 s2 : String) : Nat :=
  if s1.length ≠ s2.length then max s1.length s2.length
  else ((s1.data.zip s2.data).filter (fun p => p.1 ≠ p.2)).length

/-- The number of tokens already seen when reached (the `seen`-set pass of
`analyzeCollisions` that counts exact duplicates). -/
def countSeenDup : List String → List String → Nat
  | [], _ => 0
  | t :: rest, seen => (if t ∈ seen then 1 else 0) + countSeenDup rest (t :: seen)

/-- The index list `start, start + step, …` below `n`
(the strided `for` loops of `analyzeCollisions`; `step = 0` is unreachable
there since the function returns early below two tokens). -/
def idxList (start step n : Nat) : List Nat :=
  (List.range ((n - start + step - 1) / step)).map (fun k => start + k * step)

/-- `collisionAnalysis`'s `{ exactDuplicates, nearDuplicates,
averageHammingDistance }`. -/
structure CollisionAnalysis where
  exactDuplicates : Nat
  nearDuplicates : Nat
  averageHammingDistance : ℚ
deriving DecidableEq, Repr

/-- `analyzeCollisions`: exact duplicates via set membership; near duplicates
(Hamming distance 1–2) and the mean pairwise distance over a systematic
sample of stride `⌊n / min(1000, n)⌋`. -/
def analyzeCollisions (tokens : List String) : CollisionAnalysis :=
  if tokens.length < 2 then ⟨0, 0, 0⟩
  else
    let exactDuplicates := countSeenDup tokens []
    let n := tokens.length
    let sampleSize := min 1000 n
    let step := n / sampleSize
    let pairs := (idxList 0 step n).flatMap
      (fun i => (idxList (i + step) step n).map (fun j => (i, j)))
    let dists := pairs.map (fun p => hammingDistance (tokens.getD p.1 "") (tokens.getD p.2 ""))
    let comparisons := dists.length
    let nearDuplicates := (dists.filter (fun d => 0 < d ∧ d ≤ 2)).length
    ⟨exactDuplicates, nearDuplicates,
      if comparisons > 0 then ((dists.sum : ℚ) / (comparisons : ℚ)) else 0⟩

/-- `bitAnalysis`'s
`{ totalBits, onesCount, zerosCount, bitEntropy }`. -/
structure BitAnalysis where
  totalBits : Nat
  onesCount : Nat
  zerosCount : Nat
  bitEntropy : ℚ
deriving DecidableEq, Repr

/-- `calculateBitEntropyFromBytes`: pooled one/zero counts over the decoded
bytes and the two-symbol Shannon entropy (with the `log2(p || 1)` guards of
the source). -/
def calculateBitEntropyFromBytes (prim : Prim) (byteTokens : List (List Nat)) :
    BitAnalysis :=
  let allBits := byteTokens.flatMap bytesToBits
  let onesCount := (allBits.filter (fun b => b = 1)).length
  let zerosCount := (allBits.filter (fun b => b = 0)).length
  let totalBits := onesCount + zerosCount
  if totalBits = 0 then ⟨0, 0, 0, 0⟩
  else
    let pOne : ℚ := (onesCount : ℚ) / (totalBits : ℚ)
    let pZero : ℚ := 1 - pOne
    ⟨totalBits, onesCount, zerosCount,
      Neg.neg (pOne * prim.log2 (if pOne = 0 then 1 else pOne) +
        pZero * prim.log2 (if pZero = 0 then 1 else pZero))⟩

/-- `detectSequentialPatterns`' result `{ isSequential, count }`. -/
structure SeqRes where
  isSequential : Bool
  count : Nat
deriving DecidableEq, Repr

/-- Whether an adjacent pair parses to consecutive integers
(`currNum === prevNum + 1` with both parses non-`NaN`). -/
def isConsecutivePair (prev curr : String) : Bool :=
  match jsParseInt prev, jsParseInt curr with
  | some a, some b => b = a + 1
  | _, _ => false

/-- The adjacent-pair loop of `detectSequentialPatterns`. -/
def countSeqAux : List String → Nat
  | a :: b :: rest => (if isConsecutivePair a b then 1 else 0) + countSeqAux (b :: rest)
  | _ => 0

/-- `detectSequentialPatterns`: count adjacent consecutive-integer pairs and
flag when the count exceeds `tokens.length * 0.5`. -/
def detectSequentialPatterns (tokens : List String) : SeqRes :=
  let sequentialCount := countSeqAux tokens
  ⟨decide ((sequentialCount : ℚ) > (tokens.length : ℚ) * 0.5), sequentialCount⟩

/-- `detectTimestamps`: flag when more than 30% of the tokens are 10–13 digit
strings parsing into the 2000–2100 Unix-seconds window (strict bounds). -/
def detectTimestamps (tokens : List String) : Bool :=
  let inWindow : String → Bool := fun t =>
    match jsParseInt t with
    | some num => decide (946684800 < num ∧ num < 4102444800)
    | none => false
  let timestampCount := (tokens.filter (fun t =>
    t.data.all Char.isDigit && decide (10 ≤ t.length ∧ t.length ≤ 13) && inWindow t)).length
  decide ((timestampCount : ℚ) > (tokens.length : ℚ) * 0.3)

/-- Longest common leading run of two character lists (one shrink step of the
`findCommonPrefixSuffix` loops). -/
def commonLead : List Char → List Char → List Char
  | x :: xs, y :: ys => if x = y then x :: commonLead xs ys else []
  | _, _ => []

/-- `findCommonPrefixSuffix`: iterative character-wise shrinking of the
candidate prefix and suffix across all tokens. -/
def findCommonPrefixSuffix (tokens : List String) : String × String :=
  match tokens with
  | [] => ("", "")
  | t0 :: _ =>
    (⟨tokens.foldl (fun acc t => commonLead acc t.data) t0.data⟩,
      ⟨(tokens.foldl (fun acc t => commonLead acc t.data.reverse) t0.data.reverse).reverse⟩)

/-- `characterAnalysis`'s
`{ charset, alphabetic, numeric, special, hexadecimal, base64 }`. -/
structure CharacterAnalysis where
  charset : String
  alphabetic : Nat
  numeric : Nat
  special : Nat
  hexadecimal : Bool
  base64 : Bool
deriving DecidableEq, Repr

/-- Ascending insertion of one character by code point. -/
def insertAscChar (x : Char) : List Char → List Char
  | [] => [x]
  | y :: ys => if x.toNat ≤ y.toNat then x :: y :: ys else y :: insertAscChar x ys

/-- `analyzeCharacters`: the sorted character set, per-class counts, and the
whole-charset hexadecimal / base64 shape flags. -/
def analyzeCharacters (tokens : List String) : CharacterAnalysis :=
  let cs := tokens.flatMap String.data
  let charsetList := (firstDedup cs).foldr insertAscChar []
  let isAlpha : Char → Bool := fun c =>
    (65 ≤ c.toNat ∧ c.toNat ≤ 90) ∨ (97 ≤ c.toNat ∧ c.toNat ≤ 122)
  let isNum : Char → Bool := fun c => 48 ≤ c.toNat ∧ c.toNat ≤ 57
  let isB64Char : Char → Bool := fun c =>
    isAlpha c ∨ isNum c ∨ c = '+' ∨ c = '/' ∨ c = '='
  ⟨⟨charsetList⟩,
    (cs.filter isAlpha).length,
    (cs.filter (fun c => !isAlpha c ∧ isNum c)).length,
    (cs.filter (fun c => !isAlpha c ∧ !isNum c)).length,
    charsetList ≠ [] ∧ charsetList.all isHexDigitChar,
    charsetList ≠ [] ∧ charsetList.all isB64Char⟩

/-- The overall verdict `'CRITICAL' | 'WARNING' | 'GOOD' | 'EXCELLENT'`. -/
inductive Rating where
  | CRITICAL
  | WARNING
  | GOOD
  | EXCELLENT
deriving DecidableEq, Repr

/-- The `summary` block of `AnalysisResult`. -/
structure Summary where
  totalSamples : Nat
  uniqueValues : Nat
  duplicateCount : Nat
  duplicatePercentage : ℚ
  entropy : ℚ
  averageLength : ℚ
  minLength : Nat
  maxLength : Nat
deriving DecidableEq, Repr

/-- The `patterns` block of `AnalysisResult`. -/
structure Patterns where
  sequential : Bool
  sequentialCount : Nat
  hasTimestamps : Bool
  commonPrefix : String
  commonSuffix : String
  predictabilityScore : Nat
deriving DecidableEq, Repr

/-- The `entropyAnalysis` block of `AnalysisResult` (the two per-position
arrays are optional in the interface; the degraded result leaves the raw one
unset). -/
structure EntropyAnalysis where
  shannonEntropyPerBit : ℚ
  minEntropyPerBit : ℚ
  perPositionMinEntropy : ℚ
  effectiveSecurityBits : ℚ
  chiSquaredPValue : ℚ
  serialCorrelation : ℚ
  runsTestPValue : ℚ
  lzCompressionRatio : ℚ
  estimatedEntropyRate : ℚ
  perPositionData : Option (List PosDatum)
  perPositionRawData : Option (List RawPosDatum)
deriving DecidableEq, Repr

/-- The `security` block of `AnalysisResult`. -/
structure Security where
  overallRating : Rating
  issues : List String
  warnings : List String
  strengths : List String
  effectiveBits : ℚ
  recommendedMinimum : Nat
deriving DecidableEq, Repr

/-- One aggregated test row of the `statisticalTests` block. -/
structure StatTestEntry where
  name : String
  applicableCount : Nat
  passCount : Int
  passRate : ℚ
  medianP : ℚ
  pValues : List (Option ℚ)
deriving DecidableEq, Repr

/-- The `statisticalTests` block of `AnalysisResult`. -/
structure StatisticalTests where
  basis : String
  alpha : ℚ
  tests : List StatTestEntry
deriving DecidableEq, Repr

/-- The full `AnalysisResult`. -/
structure AnalysisResult where
  summary : Summary
  patterns : Patterns
  characterAnalysis : CharacterAnalysis
  bitAnalysis : BitAnalysis
  entropyAnalysis : EntropyAnalysis
  collisionAnalysis : CollisionAnalysis
  security : Security
  statisticalTests : Option StatisticalTests
deriving DecidableEq, Repr

/-- The token filter at the head of `analyzeTokens`: drop empty strings and
the `'Not found'` / `'Request failed…'` / `'Parse Error…'` sentinels. -/
def sentinelFilter (t : String) : Bool :=
  !(t == "") && !(t == "Not found") &&
    !(strStartsWith t "Request failed") && !(strStartsWith t "Parse Error")

/-- The surviving token strings of a capture list. -/
def validTokens (captures : List TokenCapture) : List String :=
  (captures.map TokenCapture.token).filter sentinelFilter

/-- Whether a capture is a failure sentinel (`failedCaptures`). -/
def failedFilter (c : TokenCapture) : Bool :=
  strStartsWith c.token "Request failed" || strStartsWith c.token "Parse Error"

/-- The `summary` computation of `analyzeTokens` over the filtered tokens. -/
def summaryOf (prim : Prim) (tokens : List String) : Summary :=
  let uniqueValues := (firstDedup tokens).length
  let duplicateCount := tokens.length - uniqueValues
  let lengths := tokens.map String.length
  { totalSamples := tokens.length
    uniqueValues := uniqueValues
    duplicateCount := duplicateCount
    duplicatePercentage := (duplicateCount : ℚ) / (tokens.length : ℚ) * 100
    entropy := calculateEntropy prim tokens
    averageLength := (lengths.sum : ℚ) / (lengths.length : ℚ)
    minLength := listMinNat lengths
    maxLength := listMaxNat lengths }

/-- The predictability score (0–100): `+40` sequential, `+30` timestamps,
`+20` when the duplicate percentage exceeds 10, `+10` when the common prefix
is longer than 3. -/
def predictabilityScoreOf (tokens : List String) : Nat :=
  let duplicatePercentage := (((tokens.length - (firstDedup tokens).length) : ℚ) /
    (tokens.length : ℚ)) * 100
  (if (detectSequentialPatterns tokens).isSequential then 40 else 0) +
    (if detectTimestamps tokens then 30 else 0) +
    (if duplicatePercentage > 10 then 20 else 0) +
    (if (findCommonPrefixSuffix tokens).1.length > 3 then 10 else 0)

/-- The `patterns` block assembled from the detectors. -/
def patternsOf (tokens : List String) : Patterns :=
  let seq := detectSequentialPatterns tokens
  let ps := findCommonPrefixSuffix tokens
  { sequential := seq.isSequential
    sequentialCount := seq.count
    hasTimestamps := detectTimestamps tokens
    commonPrefix := ps.1
    commonSuffix := ps.2
    predictabilityScore := predictabilityScoreOf tokens }

/-- The heavy "Security Analysis" metrics of `analyzeTokens` (computed only
when `detail = true`): decoded bytes, bit statistics, the entropy estimators
and their minimum, the per-token aggregated chi-squared / serial-correlation /
runs figures, the LZ ratio and the collision analysis. -/
structure SecMetrics where
  bitAnalysis : BitAnalysis
  totalBits : Nat
  avgBitsPerToken : ℚ
  shannonEntropyPerBit : ℚ
  minEntropyWholeToken : ℚ
  perPositionResult : PerPosRes
  perPositionMinEntropyPerBit : ℚ
  minEntropyPerBit : ℚ
  effectiveSecurityBits : ℚ
  chiSquaredPValue : ℚ
  serialCorr : ℚ
  runsTestPValue : ℚ
  lzCompressionRatio : ℚ
  estimatedEntropyRate : ℚ
  collisionAnalysis : CollisionAnalysis

/-- The security-metric computations of `analyzeTokens` (source lines
888–984, `detail = true` path).  The `estimators` list mirrors the source
exactly: the bit-bias estimator is always pushed; the per-position estimator
is guarded only by the vacuously true `!== undefined` test and hence also
always pushed; the whole-token estimator is pushed only when duplicates
exist. -/
def securityMetrics (prim : Prim) (tokens : List String) : SecMetrics :=
  let byteTokens := (tokens.map decodeTokenToBytes).map DecodedToken.bytes
  let allBits := byteTokens.flatMap bytesToBits
  let totalBits := allBits.length
  let avgBitsPerToken : ℚ := (totalBits : ℚ) / (tokens.length : ℚ)
  let bit0Count := (allBits.filter (fun b => b = 0)).length
  let p0 : ℚ := if totalBits ≠ 0 then (bit0Count : ℚ) / (totalBits : ℚ) else 0
  let p1 : ℚ := 1 - p0
  let shannonEntropyPerBit : ℚ :=
    if p0 > 0 ∧ p1 > 0 then Neg.neg (p0 * prim.log2 p0 + p1 * prim.log2 p1) else 0
  let minEntropyWholeToken := calculateMinEntropy prim tokens
  let perPositionResult := calculatePerPositionMinEntropyBytes prim byteTokens
  let perPositionMinEntropy := perPositionResult.totalEntropy
  let perPositionMinEntropyPerBit :=
    if avgBitsPerToken ≠ 0 then perPositionMinEntropy / avgBitsPerToken else 0
  let pMax := max p0 p1
  let minEntropyPerBit := if pMax > 0 then Neg.neg (prim.log2 pMax) else 0
  let duplicateCount := tokens.length - (firstDedup tokens).length
  let estimators : List ℚ :=
    [minEntropyPerBit * avgBitsPerToken, perPositionMinEntropy] ++
      (if duplicateCount > 0 then [minEntropyWholeToken] else [])
  let effectiveSecurityBits := listMin1 estimators
  let perTokenBits := (byteTokens.map bytesToBits).filter (fun b => b.length ≥ 100)
  let chiSorted := sortAsc (perTokenBits.map (chiSquaredTest prim))
  let chiSquaredPValue :=
    if chiSorted.length > 0 then chiSorted.getD (chiSorted.length / 2) 1 else 1
  let serialCorr := serialCorrelationPerTokenAverage prim byteTokens
  let runsSorted :=
    sortAsc (((perTokenBits.map (runsTest prim)).filter TestRes.applicable).map TestRes.p)
  let runsTestPValue :=
    if runsSorted.length > 0 then runsSorted.getD (runsSorted.length / 2) 1 else 1
  let lzEntropy := lzEntropyEstimate allBits
  { bitAnalysis := calculateBitEntropyFromBytes prim byteTokens
    totalBits := totalBits
    avgBitsPerToken := avgBitsPerToken
    shannonEntropyPerBit := shannonEntropyPerBit
    minEntropyWholeToken := minEntropyWholeToken
    perPositionResult := perPositionResult
    perPositionMinEntropyPerBit := perPositionMinEntropyPerBit
    minEntropyPerBit := minEntropyPerBit
    effectiveSecurityBits := effectiveSecurityBits
    chiSquaredPValue := chiSquaredPValue
    serialCorr := serialCorr
    runsTestPValue := runsTestPValue
    lzCompressionRatio :=
      if shannonEntropyPerBit > 0.000000001 then lzEntropy / shannonEntropyPerBit else 1
    estimatedEntropyRate := lzEntropy
    collisionAnalysis := analyzeCollisions tokens }

/-- The three classifier output lists. -/
structure Cls where
  issues : List String
  warnings : List String
  strengths : List String
deriving Repr

/-- The rule-based severity classifier of `analyzeTokens` (source lines
990–1078, run only when `detail = true`): every rule appends at most one
string to one of `issues` / `warnings` / `strengths`, in source order. -/
def classifierOf (prim : Prim) (tokens : List String) : Cls :=
  let m := securityMetrics prim tokens
  let s := summaryOf prim tokens
  let seq := detectSequentialPatterns tokens
  let hasTimestamps := detectTimestamps tokens
  let predictabilityScore := predictabilityScoreOf tokens
  let eff := m.effectiveSecurityBits
  let insufficientBits := m.totalBits < 100
  let r1 : Cls :=
    if eff < 64 then
      ⟨["CRITICAL: Effective security is only " ++ toFixedQ 1 eff ++
        " bits (minimum 128 bits recommended). Tokens are easily guessable."], [], []⟩
    else if eff < 80 then
      ⟨["Effective security is " ++ toFixedQ 1 eff ++
        " bits. Vulnerable to brute-force attacks (128+ bits recommended)."], [], []⟩
    else if eff < 128 then
      ⟨[], ["Effective security is " ++ toFixedQ 1 eff ++
        " bits. Below recommended 128 bits for session tokens."], []⟩
    else
      ⟨[], [], ["Strong effective security: " ++ toFixedQ 1 eff ++
        " bits (exceeds 128-bit minimum)."]⟩
  let r2 : Cls :=
    if m.minEntropyPerBit < 0.5 then
      ⟨["Very low min-entropy per bit (" ++ toFixedQ 3 m.minEntropyPerBit ++
        "). Tokens have predictable patterns."], [], []⟩
    else if m.minEntropyPerBit < 0.8 then
      ⟨[], ["Low min-entropy per bit (" ++ toFixedQ 3 m.minEntropyPerBit ++
        "). Some predictability present."], []⟩
    else if m.minEntropyPerBit > 0.95 then
      ⟨[], [], ["Excellent min-entropy per bit (" ++ toFixedQ 3 m.minEntropyPerBit ++ ")."]⟩
    else ⟨[], [], []⟩
  let r3 : Cls :=
    if s.entropy < 3 then
      ⟨[], ["Low Shannon entropy (" ++ toFixedQ 2 s.entropy ++
        "). May indicate limited character set."], []⟩
    else if s.entropy ≥ 4.5 then
      ⟨[], [], ["Good Shannon entropy (" ++ toFixedQ 2 s.entropy ++ ")."]⟩
    else ⟨[], [], []⟩
  let r4 : Cls :=
    if ¬insufficientBits ∧ m.chiSquaredPValue < 0.01 then
      ⟨["Chi-squared test failed (p=" ++ toFixedQ 4 m.chiSquaredPValue ++
        "). Bit distribution is non-uniform."], [], []⟩
    else if ¬insufficientBits ∧ m.chiSquaredPValue < 0.05 then
      ⟨[], ["Chi-squared test marginal (p=" ++ toFixedQ 4 m.chiSquaredPValue ++
        "). Slight non-uniformity detected."], []⟩
    else
      ⟨[], [], ["Chi-squared test passed (p=" ++ toFixedQ 4 m.chiSquaredPValue ++
        "). Uniform bit distribution."]⟩
  let r5 : Cls :=
    if |m.serialCorr| > 0.5 then
      ⟨["High serial correlation (" ++ toFixedQ 3 m.serialCorr ++
        "). Consecutive bits are dependent."], [], []⟩
    else if |m.serialCorr| > 0.2 then
      ⟨[], ["Moderate serial correlation (" ++ toFixedQ 3 m.serialCorr ++
        "). Some bit dependencies present."], []⟩
    else
      ⟨[], [], ["Low serial correlation (" ++ toFixedQ 3 m.serialCorr ++
        "). Bits are independent."]⟩
  let r6 : Cls :=
    if ¬insufficientBits ∧ m.runsTestPValue < 0.01 then
      ⟨["Runs test failed (p=" ++ toFixedQ 4 m.runsTestPValue ++
        "). Non-random run patterns detected."], [], []⟩
    else if ¬insufficientBits ∧ m.runsTestPValue < 0.05 then
      ⟨[], ["Runs test marginal (p=" ++ toFixedQ 4 m.runsTestPValue ++
        "). Possible run pattern issues."], []⟩
    else
      ⟨[], [], ["Runs test passed (p=" ++ toFixedQ 4 m.runsTestPValue ++
        "). Random run distribution."]⟩
  let r7 : Cls :=
    if ¬insufficientBits ∧ m.lzCompressionRatio > 1.5 then
      ⟨["High LZ compression ratio (" ++ toFixedQ 2 m.lzCompressionRatio ++
        "). Structure detected in data."], [], []⟩
    else if ¬insufficientBits ∧ m.lzCompressionRatio > 1.10 then
      ⟨[], ["Elevated LZ compression ratio (" ++ toFixedQ 2 m.lzCompressionRatio ++
        "). Some structure present."], []⟩
    else
      ⟨[], [], ["Good LZ compression ratio (" ++ toFixedQ 2 m.lzCompressionRatio ++
        "). Minimal structure."]⟩
  let r8 : Cls :=
    if (m.collisionAnalysis.nearDuplicates : ℚ) > (tokens.length : ℚ) * 0.01 then
      ⟨[], [toString m.collisionAnalysis.nearDuplicates ++
        " near-duplicate tokens found (Hamming distance ≤ 2)."], []⟩
    else if m.collisionAnalysis.nearDuplicates = 0 then
      ⟨[], [], ["No near-duplicate tokens (Hamming distance > 2)."]⟩
    else ⟨[], [], []⟩
  let r9 : Cls :=
    if s.duplicatePercentage > 10 then
      ⟨[toFixedQ 1 s.duplicatePercentage ++ "% exact duplicate tokens. Poor randomness."], [], []⟩
    else if s.duplicatePercentage > 5 then
      ⟨[], [toFixedQ 1 s.duplicatePercentage ++ "% exact duplicate tokens."], []⟩
    else if s.duplicatePercentage < 2 then
      ⟨[], [], ["Very few exact duplicates (" ++ toFixedQ 1 s.duplicatePercentage ++ "%)."]⟩
    else ⟨[], [], []⟩
  let r10 : Cls :=
    if seq.isSequential then
      ⟨["Sequential pattern detected. Tokens are predictable."], [], []⟩
    else ⟨[], [], ["No sequential patterns detected."]⟩
  let r11 : Cls :=
    if hasTimestamps then
      ⟨["Timestamp-based tokens detected. Highly predictable."], [], []⟩
    else ⟨[], [], []⟩
  let r12 : Cls :=
    if predictabilityScore > 50 then
      ⟨["High predictability score (" ++ toString predictabilityScore ++ "/100)."], [], []⟩
    else if predictabilityScore > 20 then
      ⟨[], ["Moderate predictability score (" ++ toString predictabilityScore ++ "/100)."], []⟩
    else
      ⟨[], [], ["Low predictability score (" ++ toString predictabilityScore ++ "/100)."]⟩
  ⟨r1.issues ++ r2.issues ++ r3.issues ++ r4.issues ++ r5.issues ++ r6.issues ++
      r7.issues ++ r8.issues ++ r9.issues ++ r10.issues ++ r11.issues ++ r12.issues,
    r1.warnings ++ r2.warnings ++ r3.warnings ++ r4.warnings ++ r5.warnings ++
      r6.warnings ++ r7.warnings ++ r8.warnings ++ r9.warnings ++ r10.warnings ++
      r11.warnings ++ r12.warnings,
    r1.strengths ++ r2.strengths ++ r3.strengths ++ r4.strengths ++ r5.strengths ++
      r6.strengths ++ r7.strengths ++ r8.strengths ++ r9.strengths ++ r10.strengths ++
      r11.strengths ++ r12.strengths⟩

/-- The overall-rating decision of the full (`detail = true`) path (source
lines 1083–1091): CRITICAL, then WARNING, then EXCELLENT, else GOOD, in this
exact precedence. -/
def overallRatingDetail (totalBits : Nat)
    (effectiveSecurityBits serialCorr chiSquaredPValue runsTestPValue : ℚ)
    (warnings strengths : List String) : Rating :=
  let insufficientBits := totalBits < 100
  let severeTestFailure := ¬insufficientBits ∧
    (|serialCorr| > 0.5 ∨ chiSquaredPValue < 0.001 ∨ runsTestPValue < 0.001)
  if effectiveSecurityBits < 64 ∨ (effectiveSecurityBits < 80 ∧ severeTestFailure) then
    Rating.CRITICAL
  else if warnings.length > 0 ∨ effectiveSecurityBits < 128 ∨ severeTestFailure then
    Rating.WARNING
  else if strengths.length ≥ 3 then Rating.EXCELLENT
  else Rating.GOOD

/-- The basic rating of the `detail = false` path (source lines 1093–1096):
duplicates and patterns only. -/
def basicRating (duplicatePercentage : ℚ) (isSequential hasTimestamps : Bool)
    (predictabilityScore : Nat) : Rating :=
  if duplicatePercentage > 10 ∨ isSequential = true ∨ hasTimestamps = true then
    Rating.CRITICAL
  else if duplicatePercentage > 5 ∨ predictabilityScore > 20 then Rating.WARNING
  else Rating.GOOD

/-- The SP 800-22 (subset) battery on the raw-string basis (source lines
1099–1175): the six tests run per token on the 8-bit-per-character bitstream,
inapplicable results excluded, each aggregated by `aggregatePValues` at
`alpha = 0.01`. -/
def computeStatisticalTests (prim : Prim) (tokens : List String) : StatisticalTests :=
  let alpha : ℚ := 0.01
  let rawBitsPerToken := tokens.map charStringToBitsRaw
  let monobitAll := rawBitsPerToken.map (sp22FrequencyMonobit prim)
  let runsAll := rawBitsPerToken.map (runsTest prim)
  let blockAll := rawBitsPerToken.map (fun b => sp22BlockFrequency prim b 256)
  let serialAll := rawBitsPerToken.map (sp22SerialM2 prim)
  let apenAll := rawBitsPerToken.map (fun b => sp22ApproxEntropy prim b 2)
  let cusumAll := rawBitsPerToken.map (sp22CumulativeSums prim)
  let freqApplicable := monobitAll.filter TestRes.applicable
  let runsApplicable := runsAll.filter TestRes.applicable
  let blockApplicable := blockAll.filter BlockRes.applicable
  let serialApplicable := serialAll.filter SerialRes.applicable
  let apenApplicable := apenAll.filter TestRes.applicable
  let cusumApplicable := cusumAll.filter TestRes.applicable
  let freqP := aggregatePValues (freqApplicable.map TestRes.p) alpha
  let runsP := aggregatePValues (runsApplicable.map TestRes.p) alpha
  let blockP := aggregatePValues (blockApplicable.map BlockRes.p) alpha
  let serialP := aggregatePValues (serialApplicable.map (fun r => min r.p1 r.p2)) alpha
  let apenP := aggregatePValues (apenApplicable.map TestRes.p) alpha
  let cusumP := aggregatePValues (cusumApplicable.map TestRes.p) alpha
  { basis := "raw_string"
    alpha := alpha
    tests := [
      { name := "Frequency (Monobit)", applicableCount := freqApplicable.length,
        passCount := jsRound (freqP.passRate * (freqApplicable.length : ℚ)),
        passRate := freqP.passRate, medianP := freqP.median,
        pValues := monobitAll.map (fun r => if r.applicable then some r.p else none) },
      { name := "Runs", applicableCount := runsApplicable.length,
        passCount := jsRound (runsP.passRate * (runsApplicable.length : ℚ)),
        passRate := runsP.passRate, medianP := runsP.median,
        pValues := runsAll.map (fun r => if r.applicable then some r.p else none) },
      { name := "Block Frequency (M=256)", applicableCount := blockApplicable.length,
        passCount := jsRound (blockP.passRate * (blockApplicable.length : ℚ)),
        passRate := blockP.passRate, medianP := blockP.median,
        pValues := blockAll.map (fun r => if r.applicable then some r.p else none) },
      { name := "Serial (m=2)", applicableCount := serialApplicable.length,
        passCount := jsRound (serialP.passRate * (serialApplicable.length : ℚ)),
        passRate := serialP.passRate, medianP := serialP.median,
        pValues := serialAll.map (fun r => if r.applicable then some (min r.p1 r.p2) else none) },
      { name := "Approximate Entropy (m=2)", applicableCount := apenApplicable.length,
        passCount := jsRound (apenP.passRate * (apenApplicable.length : ℚ)),
        passRate := apenP.passRate, medianP := apenP.median,
        pValues := apenAll.map (fun r => if r.applicable then some r.p else none) },
      { name := "Cumulative Sums (for/back)", applicableCount := cusumApplicable.length,
        passCount := jsRound (cusumP.passRate * (cusumApplicable.length : ℚ)),
        passRate := cusumP.passRate, medianP := cusumP.median,
        pValues := cusumAll.map (fun r => if r.applicable then some r.p else none) }] }

/-- The degraded report of the zero-valid-token short circuit (source lines
831–853): a machine-parseable tag heads the single issue —
`PARAMETER_NOT_FOUND` when every capture is `'Not found'`, `REQUEST_FAILED`
when some request failed, generic `ERROR` otherwise. -/
def analyzeTokensEmpty (captures : List TokenCapture) : AnalysisResult :=
  let failedCaptures := captures.filter failedFilter
  let notFoundCaptures := captures.filter (fun c => c.token == "Not found")
  let err : String × String :=
    if notFoundCaptures.length = captures.length then
      ("PARAMETER_NOT_FOUND", "Parameter not found in any of the " ++
        toString captures.length ++ " responses. Please verify the parameter name is correct.")
    else if failedCaptures.length > 0 then
      ("REQUEST_FAILED", "All " ++ toString failedCaptures.length ++
        " requests failed. Check network connectivity, CORS settings, or request configuration. Common issues: incorrect host/port, SSL errors, or server not responding.")
    else ("ERROR", "No valid tokens could be extracted from responses.")
  { summary := ⟨captures.length, 0, 0, 0, 0, 0, 0, 0⟩
    patterns := ⟨false, 0, false, "", "", 0⟩
    characterAnalysis := ⟨"", 0, 0, 0, false, false⟩
    bitAnalysis := ⟨0, 0, 0, 0⟩
    entropyAnalysis := ⟨0, 0, 0, 0, 0, 0, 0, 0, 0, some [], none⟩
    collisionAnalysis := ⟨0, 0, 0⟩
    security := ⟨Rating.CRITICAL, [err.1 ++ ":" ++ err.2], [], [], 0, 128⟩
    statisticalTests := none }

/-- The partial-failure warning appended to `warnings` (source lines
856–860). -/
def partialFailuresOf (captures : List TokenCapture) : List String :=
  let failedCaptures := captures.filter failedFilter
  if failedCaptures.length > 0 then
    [toString failedCaptures.length ++ " of " ++ toString captures.length ++
      " requests failed (" ++
      toFixedQ 1 (((validTokens captures).length : ℚ) / (captures.length : ℚ) * 100) ++
      "% success rate). Results may not be statistically reliable."]
  else []

/-- The main branch of `analyzeTokens` for a non-empty filtered token list. -/
def analyzeTokensMain (prim : Prim) (captures : List TokenCapture) (detail : Bool) :
    AnalysisResult :=
  let tokens := validTokens captures
  let partialFailures := partialFailuresOf captures
  let s := summaryOf prim tokens
    let seq := detectSequentialPatterns tokens
    let hasTimestamps := detectTimestamps tokens
    let m := securityMetrics prim tokens
    let cls := if detail then classifierOf prim tokens else ⟨[], [], []⟩
    let warningsAll := cls.warnings ++ partialFailures
    let overallRating :=
      if detail then
        overallRatingDetail m.totalBits m.effectiveSecurityBits m.serialCorr
          m.chiSquaredPValue m.runsTestPValue warningsAll cls.strengths
      else
        basicRating s.duplicatePercentage seq.isSequential hasTimestamps
          (predictabilityScoreOf tokens)
    { summary := s
      patterns := patternsOf tokens
      characterAnalysis := analyzeCharacters tokens
      bitAnalysis := if detail then m.bitAnalysis else ⟨0, 0, 0, 0⟩
      entropyAnalysis :=
        if detail then
          { shannonEntropyPerBit := m.shannonEntropyPerBit
            minEntropyPerBit := m.minEntropyPerBit
            perPositionMinEntropy := m.perPositionMinEntropyPerBit
            effectiveSecurityBits := m.effectiveSecurityBits
            chiSquaredPValue := m.chiSquaredPValue
            serialCorrelation := m.serialCorr
            runsTestPValue := m.runsTestPValue
            lzCompressionRatio := m.lzCompressionRatio
            estimatedEntropyRate := m.estimatedEntropyRate
            perPositionData := some m.perPositionResult.positionData
            perPositionRawData := some (calculatePerPositionCharEntropyRaw prim tokens) }
        else
          { shannonEntropyPerBit := 0
            minEntropyPerBit := 0
            perPositionMinEntropy := 0
            effectiveSecurityBits := 0
            chiSquaredPValue := 1
            serialCorrelation := 0
            runsTestPValue := 1
            lzCompressionRatio := 1
            estimatedEntropyRate := 0
            perPositionData := none
            perPositionRawData := some (calculatePerPositionCharEntropyRaw prim tokens) }
      collisionAnalysis := if detail then m.collisionAnalysis else ⟨0, 0, 0⟩
      security := ⟨overallRating, cls.issues, warningsAll, cls.strengths,
        if detail then m.effectiveSecurityBits else 0, 128⟩
      statisticalTests := some (computeStatisticalTests prim tokens) }

/-- `analyzeTokens(captures, detail)`: filter sentinels, short-circuit to the
tagged degraded report when no token survives, otherwise assemble the full
report.  The byte-level decoding, entropy metrics, classifier and collision
analysis are gated on `detail`; the SP 800-22 raw-string battery and the raw
per-position character entropy are computed unconditionally, as in the
source. -/
def analyzeTokens (prim : Prim) (captures : List TokenCapture) (detail : Bool) :
    AnalysisResult :=
  if (validTokens captures).length = 0 then analyzeTokensEmpty captures
  else analyzeTokensMain prim captures detail

/-! ### Named forms of the individual entropy estimators

These definitions name the three quantities the `estimators` list of
`securityMetrics` is built from, so that the claims about
`effectiveSecurityBits` can be stated against them. -/

/-- The decoded byte sequences of a token list. -/
def decodedByteTokens (tokens : List String) : List (List Nat) :=
  (tokens.map decodeTokenToBytes).map DecodedToken.bytes

/-- The average decoded bit count per token. -/
def avgBitsPerTokenOf (tokens : List String) : ℚ :=
  ((((decodedByteTokens tokens).flatMap bytesToBits).length : ℚ)) / (tokens.length : ℚ)

/-- The global bit-bias min-entropy per bit over the pooled decoded bits. -/
def bitBiasMinEntropyPerBit (prim : Prim) (tokens : List String) : ℚ :=
  let allBits := (decodedByteTokens tokens).flatMap bytesToBits
  let totalBits := allBits.length
  let bit0Count := (allBits.filter (fun b => b = 0)).length
  let p0 : ℚ := if totalBits ≠ 0 then (bit0Count : ℚ) / (totalBits : ℚ) else 0
  let pMax := max p0 (1 - p0)
  if pMax > 0 then Neg.neg (prim.log2 pMax) else 0

/-- The bit-bias estimator: global bit-bias min-entropy per bit times the
average bits per token. -/
def bitBiasEstimator (prim : Prim) (tokens : List String) : ℚ :=
  bitBiasMinEntropyPerBit prim tokens * avgBitsPerTokenOf tokens

/-- The per-position byte min-entropy sum estimator. -/
def perPositionEstimator (prim : Prim) (tokens : List String) : ℚ :=
  (calculatePerPositionMinEntropyBytes prim (decodedByteTokens tokens)).totalEntropy

/-- The whole-token min-entropy estimator. -/
def wholeTokenEstimator (prim : Prim) (tokens : List String) : ℚ :=
  calculateMinEntropy prim tokens

/-- The exact-duplicate count `tokens.length - uniqueValues` of the summary. -/
def duplicateCountOf (tokens : List String) : Nat :=
  tokens.length - (firstDedup tokens).length

/-- Whether all decoded tokens have the same byte length ("the sample is
fixed-length" in the specification's words). -/
def fixedLengthSample (byteTokens : List (List Nat)) : Bool :=
  match byteTokens with
  | [] => true
  | b :: rest => rest.all (fun x => x.length = b.length)

/-- The `effectiveSecurityBits` formula exactly as the specification states
it: the bit-bias estimator always; the per-position estimator only when the
decoded sample is fixed-length; the whole-token estimator only when exact
duplicates exist. -/
def effectiveSecurityBitsSpecC1 (prim : Prim) (tokens : List String) : ℚ :=
  listMin1 ([bitBiasEstimator prim tokens] ++
    (if fixedLengthSample (decodedByteTokens tokens) then [perPositionEstimator prim tokens]
     else []) ++
    (if duplicateCountOf tokens > 0 then [wholeTokenEstimator prim tokens] else []))

/-- The overall-rating rule exactly as the specification states it (§4.6):
CRITICAL when `effectiveSecurityBits < 64`, or when `effectiveSecurityBits <
80` and a severe failure holds on at least 100 total bits; else WARNING when
warnings exist, `effectiveSecurityBits < 128`, or a severe failure holds;
else EXCELLENT at three or more strengths; else GOOD. -/
def ratingSpecC4 (totalBits : Nat)
    (effectiveSecurityBits serialCorr chiSquaredPValue runsTestPValue : ℚ)
    (warnings strengths : List String) : Rating :=
  let severe := 100 ≤ totalBits ∧
    (|serialCorr| > 0.5 ∨ chiSquaredPValue < 0.001 ∨ runsTestPValue < 0.001)
  if effectiveSecurityBits < 64 ∨ (effectiveSecurityBits < 80 ∧ severe) then
    Rating.CRITICAL
  else if warnings ≠ [] ∨ effectiveSecurityBits < 128 ∨ severe then Rating.WARNING
  else if 3 ≤ strengths.length then Rating.EXCELLENT
  else Rating.GOOD

/-- The adjacent-pair count of the sequential detector as the specification
describes it: pairs of neighbours whose integer parses satisfy
`curr = prev + 1`. -/
def seqPairCount (tokens : List String) : Nat :=
  ((tokens.zip tokens.tail).filter (fun p => isConsecutivePair p.1 p.2)).length

/-- The sequential flag exactly as the specification states it: the
consecutive-pair count exceeds 50% of the `n - 1` adjacent pairs. -/
def seqFlagSpecC7 (tokens : List String) : Bool :=
  decide ((seqPairCount tokens : ℚ) > ((tokens.length : ℚ) - 1) * 0.5)

/-- The fraction of ones of a bit list (the runs test's `π`). -/
def runsFractionOnes (bits : List Nat) : ℚ :=
  (((bits.filter (fun b => b = 1)).length : ℚ)) / (bits.length : ℚ)

/-- The run-count variance of the runs test's normal approximation. -/
def runsVarianceOf (bits : List Nat) : ℚ :=
  let n0 := (bits.filter (fun b => b = 0)).length
  let n1 := (bits.filter (fun b => b = 1)).length
  let n := bits.length
  2 * (n0 : ℚ) * (n1 : ℚ) * (2 * (n0 : ℚ) * (n1 : ℚ) - (n : ℚ)) /
    ((n : ℚ) * (n : ℚ) * ((n : ℚ) - 1))

/-! ### Concrete instances for witnesses and counterexamples -/

/-- A primitive interpretation sending every transcendental to `0` (claims
proved for every `Prim` can be witnessed at it). -/
def prim0 : Prim := ⟨fun _ => 0, fun _ => 0, fun _ => 0, fun _ => 0, fun _ => 0, 0⟩

/-- A `log2` agreeing with the real base-2 logarithm on the two points the
counterexample computation evaluates it at (`log2 (1/2) = -1`,
`log2 1 = 0`). -/
def log2cx (q : ℚ) : ℚ := if q = 1 / 2 then -1 else 0

/-- The primitive interpretation of the `effectiveSecurityBits`
counterexample. -/
def primCx : Prim := ⟨fun _ => 0, fun _ => 0, log2cx, fun _ => 0, fun _ => 0, 0⟩

/-- Two hex tokens of different decoded lengths (1 and 2 bytes) with balanced
pooled bits. -/
def capsC1 : List TokenCapture := [mkCapture "0f", mkCapture "0f0f"]

/-- A single 13-character token: 104 raw-string bits, enough for the monobit
test. -/
def capsC2 : List TokenCapture := [mkCapture "aaaaaaaaaaaaa"]

/-- Two identical non-sentinel tokens. -/
def capsC5 : List TokenCapture := [mkCapture "abc", mkCapture "abc"]

/-- The sentinel tokens of the data model: `'Not found'`, `'Request failed…'`,
`'Parse Error…'`. -/
def isSentinelToken (t : String) : Prop :=
  t = "Not found" ∨ strStartsWith t "Request failed" = true ∨
    strStartsWith t "Parse Error" = true

/-- A single not-found capture. -/
def capsC3 : List TokenCapture := [mkCapture "Not found"]

/-- A single two-character token: 16 raw-string bits, below every test's
minimum length, so no test is applicable. -/
def capsC6 : List TokenCapture := [mkCapture "ab"]

/-! ### Helper lemmas -/

theorem analyzeTokens_eq_main (prim : Prim) (caps : List TokenCapture) (d : Bool)
    (h : validTokens caps ≠ []) :
    analyzeTokens prim caps d = analyzeTokensMain prim caps d := by
  unfold analyzeTokens
  rw [if_neg (by simpa [List.length_eq_zero] using h)]

theorem analyzeTokens_eq_empty (prim : Prim) (caps : List TokenCapture) (d : Bool)
    (h : validTokens caps = []) :
    analyzeTokens prim caps d = analyzeTokensEmpty caps := by
  unfold analyzeTokens
  rw [if_pos (by simp [h])]

theorem main_summary (prim : Prim) (caps : List TokenCapture) (d : Bool) :
    (analyzeTokensMain prim caps d).summary = summaryOf prim (validTokens caps) := rfl

theorem main_collision_true (prim : Prim) (caps : List TokenCapture) :
    (analyzeTokensMain prim caps true).collisionAnalysis =
      (securityMetrics prim (validTokens caps)).collisionAnalysis := rfl

theorem main_effBits_true (prim : Prim) (caps : List TokenCapture) :
    (analyzeTokensMain prim caps true).entropyAnalysis.effectiveSecurityBits =
      (securityMetrics prim (validTokens caps)).effectiveSecurityBits := rfl

theorem main_overallRating_true (prim : Prim) (caps : List TokenCapture) :
    (analyzeTokensMain prim caps true).security.overallRating =
      overallRatingDetail (securityMetrics prim (validTokens caps)).totalBits
        (securityMetrics prim (validTokens caps)).effectiveSecurityBits
        (securityMetrics prim (validTokens caps)).serialCorr
        (securityMetrics prim (validTokens caps)).chiSquaredPValue
        (securityMetrics prim (validTokens caps)).runsTestPValue
        ((classifierOf prim (validTokens caps)).warnings ++ partialFailuresOf caps)
        (classifierOf prim (validTokens caps)).strengths := rfl

theorem securityMetrics_effBits (prim : Prim) (tokens : List String) :
    (securityMetrics prim tokens).effectiveSecurityBits =
      listMin1 ([bitBiasEstimator prim tokens, perPositionEstimator prim tokens] ++
        (if duplicateCountOf tokens > 0 then [wholeTokenEstimator prim tokens] else [])) := rfl

theorem overallRatingDetail_critical (tb : Nat) (eff sc ch rn : ℚ) (ws ss : List String)
    (h : eff < 64) : overallRatingDetail tb eff sc ch rn ws ss = Rating.CRITICAL := by
  simp only [overallRatingDetail]
  rw [if_pos (Or.inl h)]

theorem validTokens_const (caps : List TokenCapture) (tok : String)
    (hall : ∀ c ∈ caps, c.token = tok) (hs : sentinelFilter tok = true) :
    validTokens caps = List.replicate caps.length tok := by
  unfold validTokens
  have hmap : caps.map TokenCapture.token = List.replicate caps.length tok := by
    rw [List.eq_replicate_iff]
    refine ⟨by simp, ?_⟩
    intro b hb
    obtain ⟨c, hc, rfl⟩ := List.mem_map.mp hb
    exact hall c hc
  rw [hmap, List.filter_eq_self.mpr]
  intro a ha
  rw [List.eq_of_mem_replicate ha]
  exact hs

theorem firstDedup_acc_mem {α : Type} [DecidableEq α] (n : Nat) (a : α) (acc : List α)
    (h : a ∈ acc) :
    (List.replicate n a).foldl (fun acc x => if x ∈ acc then acc else acc ++ [x]) acc = acc := by
  induction n with
  | zero => rfl
  | succ m ih => simp [List.replicate_succ, if_pos h, ih]

theorem firstDedup_replicate {α : Type} [DecidableEq α] (n : Nat) (a : α) (h : 1 ≤ n) :
    firstDedup (List.replicate n a) = [a] := by
  obtain ⟨m, rfl⟩ : ∃ m, n = m + 1 := ⟨n - 1, by omega⟩
  unfold firstDedup
  rw [List.replicate_succ, List.foldl_cons]
  simpa using firstDedup_acc_mem m a [a] (by simp)

theorem countSeenDup_mem (n : Nat) (a : String) (seen : List String) (h : a ∈ seen) :
    countSeenDup (List.replicate n a) seen = n := by
  induction n generalizing seen with
  | zero => rfl
  | succ m ih =>
    rw [List.replicate_succ]
    simp [countSeenDup, if_pos h, ih (a :: seen) (by simp), Nat.add_comm]

theorem countSeenDup_replicate (n : Nat) (a : String) (h : 1 ≤ n) :
    countSeenDup (List.replicate n a) [] = n - 1 := by
  obtain ⟨m, rfl⟩ : ∃ m, n = m + 1 := ⟨n - 1, by omega⟩
  rw [List.replicate_succ]
  simp [countSeenDup, countSeenDup_mem m a [a] (by simp)]

theorem analyzeCollisions_exact (tokens : List String) :
    (analyzeCollisions tokens).exactDuplicates =
      if tokens.length < 2 then 0 else countSeenDup tokens [] := by
  unfold analyzeCollisions
  split <;> rfl

theorem securityMetrics_collision (prim : Prim) (tokens : List String) :
    (securityMetrics prim tokens).collisionAnalysis = analyzeCollisions tokens := rfl

theorem securityMetrics_wholeToken (prim : Prim) (tokens : List String) :
    wholeTokenEstimator prim tokens = calculateMinEntropy prim tokens := rfl

theorem listMin1_three (a b c : ℚ) : listMin1 [a, b, c] = min (min a b) c := rfl

theorem calculateMinEntropy_replicate (prim : Prim) (tok : String) (n : Nat) (h : 1 ≤ n)
    (hlog : prim.log2 1 = 0) :
    calculateMinEntropy prim (List.replicate n tok) = 0 := by
  unfold calculateMinEntropy
  rw [if_neg (by simp; omega)]
  rw [firstDedup_replicate n tok h]
  have hcount : (List.replicate n tok).count tok = n := by simp
  have hlen : (List.replicate n tok).length = n := by simp
  simp only [List.map_cons, List.map_nil, hcount, hlen, listMaxNat, List.foldl_nil]
  rw [div_self (Nat.cast_ne_zero.mpr (by omega))]
  rw [hlog, neg_zero]

theorem string_data_append (a b : String) : (a ++ b).data = a.data ++ b.data := by
  cases a; cases b; rfl

theorem analyzeTokens_statisticalTests (prim : Prim) (caps : List TokenCapture) (d : Bool) :
    (analyzeTokens prim caps d).statisticalTests =
      if (validTokens caps).length = 0 then none
      else some (computeStatisticalTests prim (validTokens caps)) := by
  unfold analyzeTokens
  split <;> rfl

theorem computeStatisticalTests_zero (prim : Prim) (tokens : List String)
    (e : StatTestEntry) (he : e ∈ (computeStatisticalTests prim tokens).tests)
    (h0 : e.applicableCount = 0) : e.passRate = 1 ∧ e.medianP = 1 := by
  simp only [computeStatisticalTests] at he
  simp only [List.mem_cons, List.not_mem_nil, or_false] at he
  rcases he with rfl | rfl | rfl | rfl | rfl | rfl <;>
    (simp only [List.length_eq_zero] at h0
     rw [h0]
     exact ⟨rfl, rfl⟩)

theorem analyzeTokensEmpty_issues_pnf (caps : List TokenCapture)
    (h : (caps.filter (fun c => c.token == "Not found")).length = caps.length) :
    ∃ rest, ((analyzeTokensEmpty caps).security.issues.headD "").data =
      "PARAMETER_NOT_FOUND:".data ++ rest := by
  refine ⟨("Parameter not found in any of the " ++ toString caps.length ++
    " responses. Please verify the parameter name is correct.").data, ?_⟩
  simp only [analyzeTokensEmpty]
  rw [if_pos h]
  simp only [List.headD_cons, string_data_append, List.append_assoc, List.cons_append,
    List.nil_append]

theorem analyzeTokensEmpty_issues_rf (caps : List TokenCapture)
    (h1 : ¬ (caps.filter (fun c => c.token == "Not found")).length = caps.length)
    (h2 : (caps.filter failedFilter).length > 0) :
    ∃ rest, ((analyzeTokensEmpty caps).security.issues.headD "").data =
      "REQUEST_FAILED:".data ++ rest := by
  refine ⟨("All " ++ toString (caps.filter failedFilter).length ++
    " requests failed. Check network connectivity, CORS settings, or request configuration. Common issues: incorrect host/port, SSL errors, or server not responding.").data, ?_⟩
  simp only [analyzeTokensEmpty]
  rw [if_neg h1, if_pos h2]
  simp only [List.headD_cons, string_data_append, List.append_assoc, List.cons_append,
    List.nil_append]

theorem hex_not_ws (c : Char) (h : isHexDigitChar c = true) : isJsWhitespace c = false := by
  simp only [isHexDigitChar, decide_eq_true_eq] at h
  simp only [isJsWhitespace, decide_eq_false_iff_not]
  omega

theorem hex_ne_dot (c : Char) (h : isHexDigitChar c = true) : c ≠ '.' := by
  intro he
  subst he
  exact absurd h (by decide)

theorem hexBytesOfChars_length : ∀ l : List Char, (hexBytesOfChars l).length = l.length / 2
  | [] => rfl
  | [_] => by simp [hexBytesOfChars]
  | c1 :: c2 :: rest => by
    simp only [hexBytesOfChars, List.length_cons]
    rw [hexBytesOfChars_length rest]
    omega

theorem tryDecodeHex_all_hex (t : String)
    (hne : t.data.filter (fun c => !(isJsWhitespace c)) ≠ [])
    (hhex : ∀ c ∈ t.data.filter (fun c => !(isJsWhitespace c)), isHexDigitChar c = true)
    (heven : (t.data.filter (fun c => !(isJsWhitespace c))).length % 2 = 0) :
    tryDecodeHex t = some (hexBytesOfChars (t.data.filter (fun c => !(isJsWhitespace c)))) := by
  simp only [tryDecodeHex]
  rw [if_pos ⟨hne, List.all_eq_true.mpr hhex⟩, if_pos heven]

theorem decodeTokenToBytes_hex (t : String)
    (hdot : '.' ∉ t.data)
    (hne : t.data.filter (fun c => !(isJsWhitespace c)) ≠ [])
    (hhex : ∀ c ∈ t.data.filter (fun c => !(isJsWhitespace c)), isHexDigitChar c = true)
    (heven : (t.data.filter (fun c => !(isJsWhitespace c))).length % 2 = 0) :
    decodeTokenToBytes t =
      ⟨hexBytesOfChars (t.data.filter (fun c => !(isJsWhitespace c))), Enc.hex⟩ := by
  simp only [decodeTokenToBytes]
  rw [if_neg hdot, tryDecodeHex_all_hex t hne hhex heven]

/-! ### The claims -/

set_option maxRecDepth 1000000

/-- C1, counterexample: on the two hex tokens `"0f"` and `"0f0f"` (decoded
lengths 1 and 2 bytes, so not fixed-length; no duplicates) the specification's
formula — which includes the per-position estimator only for fixed-length
samples — yields 12, while the code's `effectiveSecurityBits` is 0: the
vacuous `!== undefined` guard makes the code include the per-position
estimator (here 0) for variable-length samples too. -/
theorem c1_effective_bits_counterexample :
    validTokens capsC1 = ["0f", "0f0f"] ∧
    effectiveSecurityBitsSpecC1 primCx ["0f", "0f0f"] = 12 ∧
    (analyzeTokens primCx capsC1 true).entropyAnalysis.effectiveSecurityBits = 0 ∧
    effectiveSecurityBitsSpecC1 primCx ["0f", "0f0f"] ≠
      (analyzeTokens primCx capsC1 true).entropyAnalysis.effectiveSecurityBits := by
  decide

/-- C1, amended: for every token sample analyzed with `securityAnalysis=true`,
`effectiveSecurityBits` is the minimum over the bit-bias estimator, the
per-position byte min-entropy sum (always included, whether or not the sample
is fixed-length), and — only when the exact-duplicate count is positive — the
whole-token min-entropy. -/
theorem c1_effective_bits (prim : Prim) (caps : List TokenCapture)
    (h : validTokens caps ≠ []) :
    (analyzeTokens prim caps true).entropyAnalysis.effectiveSecurityBits =
      (if duplicateCountOf (validTokens caps) > 0 then
        min (min (bitBiasEstimator prim (validTokens caps))
            (perPositionEstimator prim (validTokens caps)))
          (wholeTokenEstimator prim (validTokens caps))
      else min (bitBiasEstimator prim (validTokens caps))
        (perPositionEstimator prim (validTokens caps))) := by
  rw [analyzeTokens_eq_main prim caps true h, main_effBits_true, securityMetrics_effBits]
  by_cases hd : duplicateCountOf (validTokens caps) > 0
  · rw [if_pos hd, if_pos hd]; rfl
  · rw [if_neg hd, if_neg hd]; rfl

/-- C4: for every full (`securityAnalysis=true`) analysis, the overall rating
follows the specification's exact precedence — CRITICAL when
`effectiveSecurityBits < 64` or (`< 80` and a severe failure on at least 100
total bits); else WARNING when warnings exist, `effectiveSecurityBits < 128`,
or a severe failure; else EXCELLENT at three or more strengths; else GOOD. -/
theorem c4_rating_precedence (prim : Prim) (caps : List TokenCapture)
    (h : validTokens caps ≠ []) :
    (analyzeTokens prim caps true).security.overallRating =
      ratingSpecC4 (securityMetrics prim (validTokens caps)).totalBits
        (securityMetrics prim (validTokens caps)).effectiveSecurityBits
        (securityMetrics prim (validTokens caps)).serialCorr
        (securityMetrics prim (validTokens caps)).chiSquaredPValue
        (securityMetrics prim (validTokens caps)).runsTestPValue
        ((classifierOf prim (validTokens caps)).warnings ++ partialFailuresOf caps)
        (classifierOf prim (validTokens caps)).strengths := by
  rw [analyzeTokens_eq_main prim caps true h, main_overallRating_true]
  simp only [overallRatingDetail, ratingSpecC4, Nat.not_lt, List.length_pos, ge_iff_le]

/-- C4, witness: the precedence equation at a concrete two-token capture
list. -/
theorem c4_rating_precedence_witness :
    (analyzeTokens prim0 capsC5 true).security.overallRating =
      ratingSpecC4 (securityMetrics prim0 (validTokens capsC5)).totalBits
        (securityMetrics prim0 (validTokens capsC5)).effectiveSecurityBits
        (securityMetrics prim0 (validTokens capsC5)).serialCorr
        (securityMetrics prim0 (validTokens capsC5)).chiSquaredPValue
        (securityMetrics prim0 (validTokens capsC5)).runsTestPValue
        ((classifierOf prim0 (validTokens capsC5)).warnings ++ partialFailuresOf capsC5)
        (classifierOf prim0 (validTokens capsC5)).strengths :=
  c4_rating_precedence prim0 capsC5 (by decide)

theorem countSeqAux_eq : ∀ l : List String, countSeqAux l = seqPairCount l
  | [] => rfl
  | [_] => rfl
  | a :: b :: rest => by
    have ih := countSeqAux_eq (b :: rest)
    simp only [seqPairCount, List.tail_cons, List.zip_cons_cons, List.filter_cons] at ih ⊢
    by_cases h : isConsecutivePair a b
    · simp [countSeqAux, h, ih, Nat.add_comm]
    · simp [countSeqAux, h, ih]

/-- C7, counterexample: on `["1", "2"]` the one adjacent pair is consecutive,
so the specification's threshold — more than 50% of the `n − 1 = 1` adjacent
pairs — flags sequential, but the code compares the count against
`tokens.length * 0.5 = 1` and does not flag. -/
theorem c7_sequential_counterexample :
    seqFlagSpecC7 ["1", "2"] = true ∧
    (detectSequentialPatterns ["1", "2"]).isSequential = false := by decide

/-- C7, amended: the sequential detector counts adjacent pairs whose integer
parses satisfy `curr = prev + 1`, and flags `isSequential` exactly when that
count exceeds 50% of the number of tokens `n` (not of the `n − 1` adjacent
pairs); on `["1", "2", "3", "4", "5"]` it still flags `isSequential = true`. -/
theorem c7_sequential_detector :
    (∀ tokens : List String,
      (detectSequentialPatterns tokens).count = seqPairCount tokens ∧
      ((detectSequentialPatterns tokens).isSequential = true ↔
        (seqPairCount tokens : ℚ) > (tokens.length : ℚ) * 0.5)) ∧
    (detectSequentialPatterns ["1", "2", "3", "4", "5"]).isSequential = true := by
  constructor
  · intro tokens
    have hc := countSeqAux_eq tokens
    constructor
    · simpa [detectSequentialPatterns] using hc
    · simp [detectSequentialPatterns, hc]
  · decide

/-- C8: the runs test returns the safe default `{p := 1, applicable := false}`
whenever the length is below 100, the fraction of ones is at least `2/√n` away
from `1/2`, or the run-count variance is zero; otherwise it is applicable with
a p-value clamped to `[0, 1]` (totality over `ℚ` models the absence of
`NaN`/`Infinity`). -/
theorem c8_runs_test_safety (prim : Prim) (bits : List Nat) :
    ((bits.length < 100 ∨ |runsFractionOnes bits - 1 / 2| ≥ 2 / prim.sqrt (bits.length : ℚ) ∨
        runsVarianceOf bits = 0) → runsTest prim bits = ⟨1, false⟩) ∧
    (¬(bits.length < 100 ∨ |runsFractionOnes bits - 1 / 2| ≥ 2 / prim.sqrt (bits.length : ℚ) ∨
        runsVarianceOf bits = 0) →
      (runsTest prim bits).applicable = true ∧ 0 ≤ (runsTest prim bits).p ∧
        (runsTest prim bits).p ≤ 1) := by
  simp only [runsFractionOnes, runsVarianceOf]
  constructor
  · intro h
    simp only [runsTest]
    split_ifs with h1 h2 h3 h4 <;> try rfl
    exfalso
    rcases h with h | h | h
    · exact h1 h
    · exact absurd h (by simpa using h3)
    · exact absurd h (by simpa using h4)
  · intro h
    push_neg at h
    obtain ⟨h1, h2, h3⟩ := h
    simp only [runsTest]
    rw [if_neg (Nat.not_lt.mpr h1), if_neg (show ¬ bits.length = 0 by omega),
      if_neg (by simpa using h2), if_neg (by simpa using h3)]
    refine ⟨rfl, le_max_left 0 _, ?_⟩
    exact max_le (by norm_num) (min_le_left 1 _)

/-- C8, witness: the safe default on the empty bit list (length below 100). -/
theorem c8_runs_test_witness : runsTest prim0 [] = ⟨1, false⟩ :=
  (c8_runs_test_safety prim0 []).1 (Or.inl (by decide))

/-- C9: the decoder is total by construction (the raw UTF-8 fallback makes
`decodeTokenToBytes` a total function returning bytes for every string), and
every 32-character string of hex digits (which therefore contains no dot)
hex-decodes to exactly 16 bytes with the `hex` label. -/
theorem c9_decoder_hex (t : String) (h32 : t.data.length = 32)
    (hhex : ∀ c ∈ t.data, isHexDigitChar c = true) :
    (decodeTokenToBytes t).bytes.length = 16 ∧ (decodeTokenToBytes t).encoding = Enc.hex := by
  have hfilter : t.data.filter (fun c => !(isJsWhitespace c)) = t.data := by
    rw [List.filter_eq_self]
    intro c hc
    simp [hex_not_ws c (hhex c hc)]
  have hdot : '.' ∉ t.data := fun hm => hex_ne_dot '.' (hhex '.' hm) rfl
  have hd := decodeTokenToBytes_hex t hdot
    (by rw [hfilter]; intro h; rw [h] at h32; simp at h32)
    (by rw [hfilter]; exact hhex)
    (by rw [hfilter, h32])
  rw [hd]
  refine ⟨?_, rfl⟩
  simp [hfilter, hexBytesOfChars_length, h32]

/-- C9, witness: a concrete 32-digit hex token decodes to 16 bytes. -/
theorem c9_decoder_hex_witness :
    (decodeTokenToBytes "00112233445566778899aabbccddeeff").bytes.length = 16 ∧
    (decodeTokenToBytes "00112233445566778899aabbccddeeff").encoding = Enc.hex :=
  c9_decoder_hex "00112233445566778899aabbccddeeff" (by decide) (by decide)

/-- C10: for every dot-free token whose non-whitespace characters form a
non-empty even-length string of hex digits, the decoder strips the whitespace
first, classifies the token as hex, and returns the bytes of the stripped
digits rather than falling through to base64 or raw UTF-8. -/
theorem c10_whitespace_hex (t : String)
    (hdot : '.' ∉ t.data)
    (hne : t.data.filter (fun c => !(isJsWhitespace c)) ≠ [])
    (hhex : ∀ c ∈ t.data.filter (fun c => !(isJsWhitespace c)), isHexDigitChar c = true)
    (heven : (t.data.filter (fun c => !(isJsWhitespace c))).length % 2 = 0) :
    decodeTokenToBytes t =
      ⟨hexBytesOfChars (t.data.filter (fun c => !(isJsWhitespace c))), Enc.hex⟩ :=
  decodeTokenToBytes_hex t hdot hne hhex heven

/-- C10, witness: `" deadbeef "` decodes as hex to the four bytes of
`deadbeef`, not via base64 or raw UTF-8. -/
theorem c10_whitespace_hex_witness :
    decodeTokenToBytes " deadbeef " = ⟨[222, 173, 190, 239], Enc.hex⟩ := by
  have h := c10_whitespace_hex " deadbeef " (by decide) (by decide) (by decide) (by decide)
  rw [h]
  decide

/-- C2, counterexample: with `securityAnalysis=false` on a single
13-character token, the SP 800-22 battery is still evaluated — the result
carries a `statisticalTests` block and the monobit test has one applicable
token — refuting "none of the six SP 800-22 tests is evaluated". -/
theorem c2_fast_path_counterexample :
    ((analyzeTokens prim0 capsC2 false).statisticalTests.map
      (fun st => st.tests.map StatTestEntry.applicableCount)) = some [1, 0, 0, 0, 0, 0] ∧
    (analyzeTokens prim0 capsC2 false).statisticalTests ≠ none := by decide

/-- C2, amended: with `securityAnalysis=false`, no token is byte-decoded and
no decoded-byte computation is reflected in the result — bit analysis,
entropy metrics and collision analysis are fixed defaults, the classifier is
skipped (`issues = []`) and the rating is the basic duplicate/pattern one —
but the six SP 800-22 raw-string tests and the raw per-position character
entropy are still evaluated and included. -/
theorem c2_fast_path (prim : Prim) (caps : List TokenCapture) (h : validTokens caps ≠ []) :
    (analyzeTokens prim caps false).bitAnalysis = ⟨0, 0, 0, 0⟩ ∧
    (analyzeTokens prim caps false).entropyAnalysis =
      ⟨0, 0, 0, 0, 1, 0, 1, 1, 0, none,
        some (calculatePerPositionCharEntropyRaw prim (validTokens caps))⟩ ∧
    (analyzeTokens prim caps false).collisionAnalysis = ⟨0, 0, 0⟩ ∧
    (analyzeTokens prim caps false).security.issues = [] ∧
    (analyzeTokens prim caps false).security.overallRating =
      basicRating (summaryOf prim (validTokens caps)).duplicatePercentage
        (detectSequentialPatterns (validTokens caps)).isSequential
        (detectTimestamps (validTokens caps)) (predictabilityScoreOf (validTokens caps)) ∧
    (analyzeTokens prim caps false).statisticalTests =
      some (computeStatisticalTests prim (validTokens caps)) := by
  rw [analyzeTokens_eq_main prim caps false h]
  exact ⟨rfl, rfl, rfl, rfl, rfl, rfl⟩

/-- C2, witness: the fast-path shape at the concrete one-token capture
list. -/
theorem c2_fast_path_witness :
    (analyzeTokens prim0 capsC2 false).bitAnalysis = ⟨0, 0, 0, 0⟩ ∧
    (analyzeTokens prim0 capsC2 false).entropyAnalysis =
      ⟨0, 0, 0, 0, 1, 0, 1, 1, 0, none,
        some (calculatePerPositionCharEntropyRaw prim0 (validTokens capsC2))⟩ ∧
    (analyzeTokens prim0 capsC2 false).collisionAnalysis = ⟨0, 0, 0⟩ ∧
    (analyzeTokens prim0 capsC2 false).security.issues = [] ∧
    (analyzeTokens prim0 capsC2 false).security.overallRating =
      basicRating (summaryOf prim0 (validTokens capsC2)).duplicatePercentage
        (detectSequentialPatterns (validTokens capsC2)).isSequential
        (detectTimestamps (validTokens capsC2)) (predictabilityScoreOf (validTokens capsC2)) ∧
    (analyzeTokens prim0 capsC2 false).statisticalTests =
      some (computeStatisticalTests prim0 (validTokens capsC2)) :=
  c2_fast_path prim0 capsC2 (by decide)

/-- C3: for every capture list whose tokens are all sentinels (including the
empty list), the analysis returns normally (the embedding is a total
function) with a degraded report whose `issues[0]` starts with
`PARAMETER_NOT_FOUND:` when every capture is `'Not found'` (vacuously, also
for the empty list), and with `REQUEST_FAILED:` when some capture is a
failure sentinel. -/
theorem c3_sentinel_degraded (prim : Prim) (caps : List TokenCapture) (d : Bool)
    (hall : ∀ c ∈ caps, isSentinelToken c.token) :
    ((∀ c ∈ caps, c.token = "Not found") →
      ∃ rest, ((analyzeTokens prim caps d).security.issues.headD "").data =
        "PARAMETER_NOT_FOUND:".data ++ rest) ∧
    ((∃ c ∈ caps, c.token ≠ "Not found") →
      ∃ rest, ((analyzeTokens prim caps d).security.issues.headD "").data =
        "REQUEST_FAILED:".data ++ rest) := by
  have hv : validTokens caps = [] := by
    unfold validTokens
    rw [List.filter_eq_nil_iff]
    intro a ha
    obtain ⟨c, hc, rfl⟩ := List.mem_map.mp ha
    rcases hall c hc with h | h | h
    · simp [sentinelFilter, h]
    · simp [sentinelFilter, h]
    · simp [sentinelFilter, h]
  rw [analyzeTokens_eq_empty prim caps d hv]
  constructor
  · intro hnf
    apply analyzeTokensEmpty_issues_pnf
    rw [List.filter_length_eq_length]
    intro c hc
    simpa using hnf c hc
  · rintro ⟨c, hc, hne⟩
    apply analyzeTokensEmpty_issues_rf
    · intro heq
      have := List.filter_length_eq_length.mp heq c hc
      simp at this
      exact hne this
    · have hcf : c ∈ caps.filter failedFilter := by
        rw [List.mem_filter]
        refine ⟨hc, ?_⟩
        rcases hall c hc with h | h | h
        · exact absurd h hne
        · simp [failedFilter, h]
        · simp [failedFilter, h]
      have := List.length_pos.mpr (List.ne_nil_of_mem hcf)
      omega

/-- C3, witness: the tagged degraded report on a single not-found capture. -/
theorem c3_sentinel_degraded_witness :
    ∃ rest, ((analyzeTokens prim0 capsC3 true).security.issues.headD "").data =
      "PARAMETER_NOT_FOUND:".data ++ rest :=
  (c3_sentinel_degraded prim0 capsC3 true
      (by
        intro c hc
        rw [List.mem_singleton.mp hc]
        exact Or.inl rfl)).1
    (by
      intro c hc
      rw [List.mem_singleton.mp hc]
      rfl)

/-- C5, counterexample: for two identical captures the code's
`duplicatePercentage` is `100·(n−1)/n = 50`, not the `100` the claim
states. -/
theorem c5_duplicate_percentage_counterexample :
    (analyzeTokens prim0 capsC5 true).summary.duplicatePercentage = 50 ∧
    (analyzeTokens prim0 capsC5 true).summary.duplicatePercentage ≠ 100 := by
  decide

/-- C5, amended: for every sample of `n ≥ 2` captures all bearing the same
non-sentinel token, the full analysis reports `duplicatePercentage =
100·(n−1)/n` (not `100`), an exact-duplicate count of `n − 1`, and the overall
rating CRITICAL. -/
theorem c5_all_identical (prim : Prim) (caps : List TokenCapture) (tok : String)
    (h2 : 2 ≤ caps.length) (hall : ∀ c ∈ caps, c.token = tok)
    (hs : sentinelFilter tok = true) (hlog : prim.log2 1 = 0) :
    (analyzeTokens prim caps true).summary.duplicatePercentage =
      ((caps.length : ℚ) - 1) / (caps.length : ℚ) * 100 ∧
    (analyzeTokens prim caps true).collisionAnalysis.exactDuplicates = caps.length - 1 ∧
    (analyzeTokens prim caps true).security.overallRating = Rating.CRITICAL := by
  have hv : validTokens caps = List.replicate caps.length tok :=
    validTokens_const caps tok hall hs
  have hne : validTokens caps ≠ [] := by
    rw [hv]
    intro hx
    have hx2 := congrArg List.length hx
    simp only [List.length_replicate, List.length_nil] at hx2
    omega
  have hd1 : firstDedup (validTokens caps) = [tok] := by
    rw [hv]; exact firstDedup_replicate _ tok (by omega)
  have hlen : (validTokens caps).length = caps.length := by rw [hv]; simp
  rw [analyzeTokens_eq_main prim caps true hne]
  refine ⟨?_, ?_, ?_⟩
  · rw [main_summary]
    simp only [summaryOf]
    rw [hd1, hlen]
    simp only [List.length_cons, List.length_nil]
    rw [Nat.cast_sub (by omega)]
    norm_num
  · rw [main_collision_true, securityMetrics_collision, hv, analyzeCollisions_exact]
    rw [if_neg (by simp; omega)]
    rw [countSeenDup_replicate _ tok (by omega)]
  · rw [main_overallRating_true]
    have hdup : duplicateCountOf (validTokens caps) > 0 := by
      unfold duplicateCountOf
      rw [hd1, hlen]
      simp
      omega
    have he3 : wholeTokenEstimator prim (validTokens caps) = 0 := by
      rw [securityMetrics_wholeToken, hv]
      exact calculateMinEntropy_replicate prim tok _ (by omega) hlog
    have heff : (securityMetrics prim (validTokens caps)).effectiveSecurityBits < 64 := by
      rw [securityMetrics_effBits, if_pos hdup]
      simp only [List.cons_append, List.nil_append]
      rw [listMin1_three, he3]
      exact lt_of_le_of_lt (min_le_right _ _) (by norm_num)
    exact overallRatingDetail_critical _ _ _ _ _ _ _ heff

/-- C5, witness: the amended statement at two identical `"abc"` captures. -/
theorem c5_all_identical_witness :
    (analyzeTokens prim0 capsC5 true).summary.duplicatePercentage =
      ((capsC5.length : ℚ) - 1) / (capsC5.length : ℚ) * 100 ∧
    (analyzeTokens prim0 capsC5 true).collisionAnalysis.exactDuplicates = capsC5.length - 1 ∧
    (analyzeTokens prim0 capsC5 true).security.overallRating = Rating.CRITICAL :=
  c5_all_identical prim0 capsC5 "abc" (by decide) (by decide) (by decide) rfl

/-- C6: for every statistical test of the battery and every token sample in
which zero tokens are applicable to that test, the aggregated entry reports
`passRate = 1` and `medianP = 1`. -/
theorem c6_zero_applicable (prim : Prim) (caps : List TokenCapture) (d : Bool)
    (st : StatisticalTests) (hst : (analyzeTokens prim caps d).statisticalTests = some st)
    (e : StatTestEntry) (he : e ∈ st.tests) (h0 : e.applicableCount = 0) :
    e.passRate = 1 ∧ e.medianP = 1 := by
  rw [analyzeTokens_statisticalTests] at hst
  by_cases hz : (validTokens caps).length = 0
  · rw [if_pos hz] at hst; cases hst
  · rw [if_neg hz] at hst
    injection hst with hst
    subst hst
    exact computeStatisticalTests_zero prim (validTokens caps) e he h0

/-- C6, witness: the convention at a single short token, on which every test
of the battery has zero applicable tokens. -/
theorem c6_zero_applicable_witness :
    ((computeStatisticalTests prim0 ["ab"]).tests.headD ⟨"", 0, 0, 0, 0, []⟩).passRate = 1 ∧
    ((computeStatisticalTests prim0 ["ab"]).tests.headD ⟨"", 0, 0, 0, 0, []⟩).medianP = 1 :=
  c6_zero_applicable prim0 capsC6 true (computeStatisticalTests prim0 ["ab"])
    (by decide) ((computeStatisticalTests prim0 ["ab"]).tests.headD ⟨"", 0, 0, 0, 0, []⟩)
    (by decide) (by decide)

/-- C1, witness: the amended formula evaluated at the concrete two-token
capture list. -/
theorem c1_effective_bits_witness :
    (analyzeTokens primCx capsC1 true).entropyAnalysis.effectiveSecurityBits =
      (if duplicateCountOf (validTokens capsC1) > 0 then
        min (min (bitBiasEstimator primCx (validTokens capsC1))
            (perPositionEstimator primCx (validTokens capsC1)))
          (wholeTokenEstimator primCx (validTokens capsC1))
      else min (bitBiasEstimator primCx (validTokens capsC1))
        (perPositionEstimator primCx (validTokens capsC1))) :=
  c1_effective_bits primCx capsC1 (by decide)

end RndSeq
